import Mathlib

/-!
Verification of the hakoniwa terrain/hydrology sandbox core.

The simulation core operates on dense rational-valued grids.  JavaScript
doubles are modelled by exact rationals; the platform math functions
(Math.sin, Math.exp, Math.pow, Math.sqrt and the constant Math.PI) are
modelled by an explicit record of deterministic functions, so every
definition stays executable and every theorem quantifies over the
platform functions where the source calls them.
-/

/-- Record of the platform math primitives used by the source
(Math.sin, Math.exp, Math.sqrt, Math.pow, Math.PI).  They are ordinary
deterministic functions of their arguments, which is all the claims rely on. -/
structure JsMath where
  sin : ℚ → ℚ
  exp : ℚ → ℚ
  sqrt : ℚ → ℚ
  pow : ℚ → ℚ → ℚ
  pi : ℚ

/-- src/core/grid.ts: clamp(value, min, max) = Math.min(max, Math.max(min, value)). -/
def clamp (value minV maxV : ℚ) : ℚ := min maxV (max minV value)

/-- src/core/grid.ts: toIndex(size, x, y) = y * size + x. -/
def toIndex (size x y : ℕ) : ℕ := y * size + x

/-- src/core/grid.ts: inBounds(size, x, y). -/
def inBounds (size : ℕ) (x y : ℤ) : Prop :=
  0 ≤ x ∧ x < (size : ℤ) ∧ 0 ≤ y ∧ y < (size : ℤ)

instance (size : ℕ) (x y : ℤ) : Decidable (inBounds size x y) := by
  unfold inBounds; infer_instance

/-- JS Math.round: round half toward positive infinity. -/
def jsRound (q : ℚ) : ℤ := ⌊q + 1/2⌋

/-- src/core/world.ts: MIN_TERRAIN_HEIGHT. -/
def MIN_TERRAIN_HEIGHT : ℚ := -12

/-- src/core/world.ts: MAX_TERRAIN_HEIGHT. -/
def MAX_TERRAIN_HEIGHT : ℚ := 24

/-- src/core/types.ts: WaterSource. -/
structure WaterSource where
  id : String
  x : ℚ
  y : ℚ
  rate : ℚ
  active : Bool
deriving Repr, DecidableEq

/-- src/core/types.ts: WorldState.  The Float32Array fields are modelled as
rational lists; the grid invariant is terrain.length = water.length = size * size. -/
structure WorldState where
  version : ℕ
  size : ℕ
  terrainSeed : ℚ
  terrain : List ℚ
  water : List ℚ
  sources : List WaterSource
  vegetationSeed : ℚ
  time : ℚ
deriving Repr, DecidableEq

/-- src/core/types.ts: SimParams (seepage and edgeDrain are optional,
the solver reads them with a default of 0). -/
structure SimParams where
  dt : ℚ
  flowRate : ℚ
  damping : ℚ
  evaporation : ℚ
  seepage : Option ℚ
  edgeDrain : Option ℚ
deriving Repr, DecidableEq

/-! ## Water flow solver (src/core/water.ts) -/

/-- Source-injection loop of stepWater: for every active source with
in-bounds rounded coordinates, water[idx] += max(0, rate) * dt. -/
def injectSources (size : ℕ) (dtv : ℚ) (sources : List WaterSource)
    (water : List ℚ) : List ℚ :=
  sources.foldl
    (fun w s =>
      if s.active then
        let sx := jsRound s.x
        let sy := jsRound s.y
        if inBounds size sx sy then
          let j := toIndex size sx.toNat sy.toNat
          w.set j (w.getD j 0 + max 0 s.rate * dtv)
        else w
      else w)
    water

/-- Total height terrain[i] + water[i] of a cell. -/
def cellHeight (terrain water : List ℚ) (i : ℕ) : ℚ :=
  terrain.getD i 0 + water.getD i 0

/-- Index of the neighbor of (x, y) in direction d, when it is in bounds.
The source checks only the moved coordinate; combined with the loop bounds
on x and y this is the same condition. -/
def nbrIndex (size x y : ℕ) (d : ℤ × ℤ) : Option ℕ :=
  let nx := (x : ℤ) + d.1
  let ny := (y : ℤ) + d.2
  if inBounds size nx ny then some (toIndex size nx.toNat ny.toNat) else none

/-- Outflow potential from cell (x, y) toward direction d:
(heightDifference) * flowRate * dt when the neighbor exists and is lower. -/
def dirPotential (terrain water : List ℚ) (size : ℕ) (fr dtv : ℚ)
    (x y : ℕ) (d : ℤ × ℤ) : ℚ :=
  match nbrIndex size x y d with
  | none => 0
  | some j =>
    let diff := cellHeight terrain water (toIndex size x y) - cellHeight terrain water j
    if 0 < diff then diff * fr * dtv else 0

/-- The four flow directions in source order: right, left, up, down. -/
def flowDirs : List (ℤ × ℤ) := [(1, 0), (-1, 0), (0, 1), (0, -1)]

/-- totalPotential = rightPotential + leftPotential + upPotential + downPotential. -/
def totalPotential (terrain water : List ℚ) (size : ℕ) (fr dtv : ℚ)
    (x y : ℕ) : ℚ :=
  (flowDirs.map (dirPotential terrain water size fr dtv x y)).sum

/-- Scaled amount cell (x, y) sends in direction d.  Cells with no water or
no positive total potential are skipped; otherwise every direction potential
is scaled by min(1, currentWater / totalPotential). -/
def flowAmount (terrain water : List ℚ) (size : ℕ) (fr dtv : ℚ)
    (x y : ℕ) (d : ℤ × ℤ) : ℚ :=
  let cw := water.getD (toIndex size x y) 0
  if cw ≤ 0 then 0
  else
    let tp := totalPotential terrain water size fr dtv x y
    if tp ≤ 0 then 0
    else dirPotential terrain water size fr dtv x y d * min 1 (cw / tp)

/-- Accumulated delta buffer of the outflow pass.  The loop accumulates
delta[neighborIndex] += amount and delta[index] -= amount over all cells and
directions; since additions commute the final entry at i is this sum. -/
def waterDelta (terrain water : List ℚ) (size : ℕ) (fr dtv : ℚ) (i : ℕ) : ℚ :=
  ∑ y ∈ Finset.range size, ∑ x ∈ Finset.range size,
    (flowDirs.map fun d =>
      (if nbrIndex size x y d = some i then flowAmount terrain water size fr dtv x y d else 0)
      - (if toIndex size x y = i then flowAmount terrain water size fr dtv x y d else 0)).sum

/-- Loss pass of stepWater at cell index i (x = i % size, y = i / size):
apply the flow delta, damping, evaporation, seepage, the guarded edge drain,
and the final floor clamp at 0. -/
def lossAt (size : ℕ) (terrain water1 : List ℚ)
    (fr dtv dampingFactor evaporationLoss seepage edgeDrain : ℚ) (i : ℕ) : ℚ :=
  let x := i % size
  let y := i / size
  let withFlow := water1.getD i 0 + waterDelta terrain water1 size fr dtv i
  let seepLoss := withFlow * seepage * dtv
  let next := withFlow * dampingFactor - evaporationLoss - seepLoss
  let next2 :=
    if (x = 0 ∨ y = 0 ∨ x = size - 1 ∨ y = size - 1) ∧ 0 < next then
      next - edgeDrain * dtv
    else next
  max 0 next2

/-- src/core/water.ts: stepWater(state, params).  Mutation of state.water is
modelled by returning the state with the new water array. -/
def stepWater (state : WorldState) (params : SimParams) : WorldState :=
  let dtv := max (1/10000 : ℚ) params.dt
  let fr := max 0 params.flowRate
  let damping := max 0 params.damping
  let evaporation := max 0 params.evaporation
  let seepage := max 0 (params.seepage.getD 0)
  let edgeDrain := max 0 (params.edgeDrain.getD 0)
  let water1 := injectSources state.size dtv state.sources state.water
  let dampingFactor := clamp (1 - damping * dtv) 0 1
  let evaporationLoss := evaporation * dtv
  { state with
    water :=
      (List.range (state.size * state.size)).map
        (lossAt state.size state.terrain water1 fr dtv dampingFactor
          evaporationLoss seepage edgeDrain) }

/-- src/core/water.ts: totalWater(state) sums every water cell. -/
def totalWater (state : WorldState) : ℚ := state.water.sum

/-- Variant of the loss pass considered by the spec: the edge drain is
subtracted unconditionally on border cells, relying on the final floor clamp. -/
def lossAtUncond (size : ℕ) (terrain water1 : List ℚ)
    (fr dtv dampingFactor evaporationLoss seepage edgeDrain : ℚ) (i : ℕ) : ℚ :=
  let x := i % size
  let y := i / size
  let withFlow := water1.getD i 0 + waterDelta terrain water1 size fr dtv i
  let seepLoss := withFlow * seepage * dtv
  let next := withFlow * dampingFactor - evaporationLoss - seepLoss
  let next2 :=
    if x = 0 ∨ y = 0 ∨ x = size - 1 ∨ y = size - 1 then
      next - edgeDrain * dtv
    else next
  max 0 next2

/-- stepWater with the unconditional edge-drain variant of the loss pass. -/
def stepWaterUncond (state : WorldState) (params : SimParams) : WorldState :=
  let dtv := max (1/10000 : ℚ) params.dt
  let fr := max 0 params.flowRate
  let damping := max 0 params.damping
  let evaporation := max 0 params.evaporation
  let seepage := max 0 (params.seepage.getD 0)
  let edgeDrain := max 0 (params.edgeDrain.getD 0)
  let water1 := injectSources state.size dtv state.sources state.water
  let dampingFactor := clamp (1 - damping * dtv) 0 1
  let evaporationLoss := evaporation * dtv
  { state with
    water :=
      (List.range (state.size * state.size)).map
        (lossAtUncond state.size state.terrain water1 fr dtv dampingFactor
          evaporationLoss seepage edgeDrain) }

/-! ## Terrain brush (src/core/terrain.ts) -/

/-- src/core/types.ts: ToolMode. -/
inductive ToolMode where
  | raise
  | lower
  | flatten
  | waterSource
deriving Repr, DecidableEq

/-- src/core/types.ts: BrushSettings. -/
structure BrushSettings where
  radius : ℚ
  strength : ℚ
  flattenHeight : ℚ
deriving Repr, DecidableEq

/-- src/core/terrain.ts: applyBrush(state, cx, cy, tool, brush).  The loop
visits every grid cell of the clipped bounding box exactly once and each
visited cell reads only its own previous height, so the in-place mutation is
rendered as a pointwise map over the grid. -/
def applyBrush (jm : JsMath) (state : WorldState) (cx cy : ℚ)
    (tool : ToolMode) (brush : BrushSettings) : WorldState :=
  if tool = ToolMode.waterSource then state
  else
    let radius := max 1 brush.radius
    let strength := clamp brush.strength (1/100) 1
    let minX : ℤ := max 0 ⌊cx - radius⌋
    let maxX : ℤ := min ((state.size : ℤ) - 1) ⌈cx + radius⌉
    let minY : ℤ := max 0 ⌊cy - radius⌋
    let maxY : ℤ := min ((state.size : ℤ) - 1) ⌈cy + radius⌉
    { state with
      terrain :=
        (List.range (state.size * state.size)).map fun i =>
          let x : ℤ := (i % state.size : ℕ)
          let y : ℤ := (i / state.size : ℕ)
          let current := state.terrain.getD i 0
          if minX ≤ x ∧ x ≤ maxX ∧ minY ≤ y ∧ y ≤ maxY then
            let dx := (x : ℚ) - cx
            let dy := (y : ℚ) - cy
            let distance := jm.sqrt (dx * dx + dy * dy)
            if radius < distance then current
            else
              let falloff := 1 - distance / radius
              let influence := falloff * strength
              let next :=
                match tool with
                | ToolMode.raise => current + influence
                | ToolMode.lower => current - influence
                | ToolMode.flatten => current + (brush.flattenHeight - current) * influence
                | ToolMode.waterSource => current
              clamp next MIN_TERRAIN_HEIGHT MAX_TERRAIN_HEIGHT
          else current }

/-! ## JavaScript numbers with non-finite tracking

The rational model above is exact for finite JS numbers but has no value
for NaN.  The terrain generator divides by size - 1, which is 0 / 0 at
size = 1 and produces NaN in the source; to settle that case faithfully,
the definitions below model a JS number as an Option: some q is a finite
value (exact rational, overflow to infinity not modelled), none is a
non-finite value (NaN, or an infinity, which these operations do not
distinguish; on the paths evaluated here the only non-finite value that
arises is NaN).  Arithmetic on non-finite values propagates none, as JS
arithmetic propagates NaN. -/

/-- JS addition with NaN propagation. -/
def jsAdd : Option ℚ → Option ℚ → Option ℚ
  | some a, some b => some (a + b)
  | _, _ => none

/-- JS subtraction with NaN propagation. -/
def jsSub : Option ℚ → Option ℚ → Option ℚ
  | some a, some b => some (a - b)
  | _, _ => none

/-- JS multiplication with NaN propagation. -/
def jsMul : Option ℚ → Option ℚ → Option ℚ
  | some a, some b => some (a * b)
  | _, _ => none

/-- JS negation with NaN propagation. -/
def jsNeg : Option ℚ → Option ℚ
  | some a => some (-a)
  | none => none

/-- JS division: finite unless the denominator is 0; 0 / 0 is NaN and
x / 0 is an infinity, both non-finite, so both map to none. -/
def jsDiv : Option ℚ → Option ℚ → Option ℚ
  | some a, some b => if b = 0 then none else some (a / b)
  | _, _ => none

/-- JS Math.max returns NaN when either argument is NaN. -/
def jsMax : Option ℚ → Option ℚ → Option ℚ
  | some a, some b => some (max a b)
  | _, _ => none

/-- JS Math.min returns NaN when either argument is NaN. -/
def jsMin : Option ℚ → Option ℚ → Option ℚ
  | some a, some b => some (min a b)
  | _, _ => none

/-- JS Math.abs: Math.abs(NaN) is NaN. -/
def jsAbs : Option ℚ → Option ℚ
  | some a => some |a|
  | none => none

/-- JS Math.floor: Math.floor(NaN) is NaN. -/
def jsFloor : Option ℚ → Option ℚ
  | some a => some ((⌊a⌋ : ℤ) : ℚ)
  | none => none

/-- Lift of a unary platform primitive: the record's finite value on finite
input, NaN on NaN input, as for Math.sin, Math.exp and Math.sqrt of a
finite argument. -/
def jsLift (f : ℚ → ℚ) : Option ℚ → Option ℚ
  | some q => some (f q)
  | none => none

/-- Lift of Math.pow.  For finite arguments Math.pow can itself yield NaN
(negative base with fractional exponent); that case does not arise on the
path evaluated below, where the base is already non-finite at size 1. -/
def jsLift2 (f : ℚ → ℚ → ℚ) : Option ℚ → Option ℚ → Option ℚ
  | some a, some b => some (f a b)
  | _, _ => none

/-- A JS number lies within the terrain height bounds only if it is a
finite value in [MIN_TERRAIN_HEIGHT, MAX_TERRAIN_HEIGHT]; NaN fails every
comparison. -/
def jsWithinHeightBounds : Option ℚ → Bool
  | some q => decide (MIN_TERRAIN_HEIGHT ≤ q ∧ q ≤ MAX_TERRAIN_HEIGHT)
  | none => false

/-! ## Procedural terrain generation (src/core/world.ts) -/

namespace WorldGen

/-- src/core/world.ts: fract(value) = value - Math.floor(value). -/
def fract (value : ℚ) : ℚ := value - ⌊value⌋

/-- src/core/world.ts: hash2D(x, y, seed), the sin-based lattice hash. -/
def hash2D (jm : JsMath) (x y seed : ℚ) : ℚ :=
  fract (jm.sin (x * 127.1 + y * 311.7 + seed * 0.00137) * 43758.5453123)

/-- src/core/world.ts: smoothstep easing t * t * (3 - 2 * t). -/
def smoothstep (t : ℚ) : ℚ := t * t * (3 - 2 * t)

/-- src/core/world.ts: valueNoise(x, y, seed), bilinear interpolation of four
lattice hashes with smoothstep easing. -/
def valueNoise (jm : JsMath) (x y seed : ℚ) : ℚ :=
  let x0 : ℤ := ⌊x⌋
  let y0 : ℤ := ⌊y⌋
  let x1 : ℤ := x0 + 1
  let y1 : ℤ := y0 + 1
  let tx := x - (x0 : ℚ)
  let ty := y - (y0 : ℚ)
  let v00 := hash2D jm (x0 : ℚ) (y0 : ℚ) seed
  let v10 := hash2D jm (x1 : ℚ) (y0 : ℚ) seed
  let v01 := hash2D jm (x0 : ℚ) (y1 : ℚ) seed
  let v11 := hash2D jm (x1 : ℚ) (y1 : ℚ) seed
  let sx := smoothstep tx
  let sy := smoothstep ty
  let a := v00 + (v10 - v00) * sx
  let b := v01 + (v11 - v01) * sx
  a + (b - a) * sy

/-- src/core/world.ts: fractalNoise.  The loop keeps amplitude = gain ^ octave
and frequency = lacunarity ^ octave, so the accumulators are written in
closed form. -/
def fractalNoise (jm : JsMath) (x y seed : ℚ) (octaves : ℕ)
    (lacunarity gain : ℚ) : ℚ :=
  let total := ∑ o ∈ Finset.range octaves,
    valueNoise jm (x * lacunarity ^ o) (y * lacunarity ^ o) (seed + o * 97) * gain ^ o
  let weight := ∑ o ∈ Finset.range octaves, gain ^ o
  if 0 < weight then total / weight else 0

/-- The 3 x 3 neighborhood offsets of the box blur, in loop order. -/
def blurOffsets : List (ℤ × ℤ) :=
  [(-1, -1), (0, -1), (1, -1), (-1, 0), (0, 0), (1, 0), (-1, 1), (0, 1), (1, 1)]

/-- src/core/world.ts: smoothTerrain(terrain, size, blend), one box-blur pass
blended as old * (1 - blend) + avg * blend.  The pass reads from a snapshot
copy, rendered here as a pointwise map. -/
def smoothTerrain (terrain : List ℚ) (size : ℕ) (blend : ℚ) : List ℚ :=
  (List.range (size * size)).map fun i =>
    let x : ℤ := (i % size : ℕ)
    let y : ℤ := (i / size : ℕ)
    let inNbrs := blurOffsets.filter fun d => inBounds size (x + d.1) (y + d.2)
    let total := (inNbrs.map fun d =>
      terrain.getD (toIndex size (x + d.1).toNat (y + d.2).toNat) 0).sum
    let count := inNbrs.length
    let average := total / (max 1 count : ℕ)
    terrain.getD i 0 * (1 - blend) + average * blend

/-- src/core/world.ts: generateBaseTerrain(size, seed): per-cell layered
noise, clamped to the height bounds, followed by the two box-blur passes. -/
def generateBaseTerrain (jm : JsMath) (size : ℕ) (seed : ℚ) : List ℚ :=
  let terrain := (List.range (size * size)).map fun i =>
    let x : ℚ := (i % size : ℕ)
    let y : ℚ := (i / size : ℕ)
    let nx := x / ((size : ℚ) - 1)
    let ny := y / ((size : ℚ) - 1)
    let cx := nx * 2 - 1
    let cy := ny * 2 - 1
    let radial := jm.sqrt (cx * cx + cy * cy)
    let macroNoise := fractalNoise jm (nx * 3.4 + 14.3) (ny * 3.4 + 8.9) seed 5 2.08 0.52
    let detail := fractalNoise jm (nx * 18.8 + 71.1) (ny * 18.8 + 39.7) (seed + 999) 4 2.2 0.46
    let ridgeBase := fractalNoise jm (nx * 5.7 + 2.7) (ny * 5.7 + 6.4) (seed + 313) 4 2.03 0.5
    let ridges := 1 - |ridgeBase * 2 - 1|
    let warp := (fractalNoise jm (nx * 7.2 + 11.1) (ny * 7.2 + 4.2) (seed + 1703) 3 2.0 0.5 - 0.5) * 0.72
    let continent := (macroNoise - 0.5) * 13.8
    let mountain := jm.pow ridges 1.35 * 8.6
    let fold := jm.sin ((nx * 1.45 + ny * 1.2 + macroNoise * 0.8 + seed * 0.000012) * jm.pi * 2) * 1.35
    let valleyAxis := cy + warp + jm.sin (cx * 3.1 + seed * 0.00021) * 0.2
    let riverValley := -jm.exp (-jm.pow (valleyAxis * 4.2) 2) * 4.5
    let coastalDrop := -jm.pow (max 0 (radial - 0.7) * 3.8) 2 * 3.3
    let micro := (detail - 0.5) * 1.9
    let height := continent + mountain + fold + riverValley + coastalDrop + micro
    clamp height MIN_TERRAIN_HEIGHT MAX_TERRAIN_HEIGHT
  smoothTerrain (smoothTerrain terrain size 0.16) size 0.08

/-- src/core/world.ts: findHighestInteriorCell(terrain, size, margin):
scan the interior for the strictly highest cell, first maximum wins.
The NEGATIVE_INFINITY initial best is modelled by the none state. -/
def findHighestInteriorCell (terrain : List ℚ) (size margin : ℕ) :
    Option (ℕ × ℕ × ℚ) :=
  let best := (List.range (size * size)).foldl
    (fun best i =>
      let x := i % size
      let y := i / size
      if margin ≤ x ∧ x < size - margin ∧ margin ≤ y ∧ y < size - margin then
        let height := terrain.getD i 0
        match best with
        | none => some (i, height)
        | some (bi, bh) => if bh < height then some (i, height) else some (bi, bh)
      else best)
    (none : Option (ℕ × ℚ))
  best.map fun (bi, bh) => (bi % size, bi / size, bh)

/-- src/core/world.ts: generateInitialSources(terrain, size): one source at
the highest interior peak, rate rounded to 2 decimals; empty when no
interior cell exists. -/
def generateInitialSources (terrain : List ℚ) (size : ℕ) : List WaterSource :=
  let margin := max 2 (⌊(size : ℚ) * 0.06⌋).toNat
  match findHighestInteriorCell terrain size margin with
  | none => []
  | some (px, py, ph) =>
    let normalizedPeak := clamp ((ph + 4) / 20) 0 1
    let rate := 1.1 + normalizedPeak * 0.95
    [{ id := "source-1", x := (px : ℚ), y := (py : ℚ),
       rate := (jsRound (rate * 100) : ℚ) / 100, active := true }]

/-! Non-finite-tracking transliteration of the same generator.  Each
definition below repeats the corresponding rational definition above with
every JS number operation replaced by its none-propagating counterpart, so
the NaN produced by the 0 / 0 coordinate normalization at size = 1 can be
followed through the pipeline. -/

/-- fract(value) with NaN propagation. -/
def fractN (value : Option ℚ) : Option ℚ := jsSub value (jsFloor value)

/-- hash2D(x, y, seed) with NaN propagation. -/
def hash2DN (jm : JsMath) (x y : Option ℚ) (seed : ℚ) : Option ℚ :=
  fractN (jsMul (jsLift jm.sin (jsAdd (jsAdd (jsMul x (some 127.1))
    (jsMul y (some 311.7))) (some (seed * 0.00137)))) (some 43758.5453123))

/-- smoothstep easing with NaN propagation. -/
def smoothstepN (t : Option ℚ) : Option ℚ :=
  jsMul (jsMul t t) (jsSub (some 3) (jsMul (some 2) t))

/-- valueNoise(x, y, seed) with NaN propagation. -/
def valueNoiseN (jm : JsMath) (x y : Option ℚ) (seed : ℚ) : Option ℚ :=
  let x0 := jsFloor x
  let y0 := jsFloor y
  let x1 := jsAdd x0 (some 1)
  let y1 := jsAdd y0 (some 1)
  let tx := jsSub x x0
  let ty := jsSub y y0
  let v00 := hash2DN jm x0 y0 seed
  let v10 := hash2DN jm x1 y0 seed
  let v01 := hash2DN jm x0 y1 seed
  let v11 := hash2DN jm x1 y1 seed
  let sx := smoothstepN tx
  let sy := smoothstepN ty
  let a := jsAdd v00 (jsMul (jsSub v10 v00) sx)
  let b := jsAdd v01 (jsMul (jsSub v11 v01) sx)
  jsAdd a (jsMul (jsSub b a) sy)

/-- fractalNoise with NaN propagation.  The amplitude/frequency/weight
accumulators only ever hold finite values (powers of the finite gain and
lacunarity parameters), so they stay rational; the noise total is
accumulated left to right as in the source loop. -/
def fractalNoiseN (jm : JsMath) (x y : Option ℚ) (seed : ℚ) (octaves : ℕ)
    (lacunarity gain : ℚ) : Option ℚ :=
  let total := (List.range octaves).foldl
    (fun (acc : Option ℚ) (o : ℕ) =>
      jsAdd acc (jsMul (valueNoiseN jm (jsMul x (some (lacunarity ^ o)))
        (jsMul y (some (lacunarity ^ o))) (seed + o * 97)) (some (gain ^ o)))) (some 0)
  let weight := ∑ o ∈ Finset.range octaves, gain ^ o
  if 0 < weight then jsDiv total (some weight) else some 0

/-- smoothTerrain with NaN propagation: the neighborhood total is
accumulated with jsAdd, the count is a pure integer. -/
def smoothTerrainN (terrain : List (Option ℚ)) (size : ℕ) (blend : ℚ) :
    List (Option ℚ) :=
  (List.range (size * size)).map fun i =>
    let x : ℤ := (i % size : ℕ)
    let y : ℤ := (i / size : ℕ)
    let inNbrs := blurOffsets.filter fun d => inBounds size (x + d.1) (y + d.2)
    let total := inNbrs.foldl
      (fun acc d => jsAdd acc (terrain.getD (toIndex size (x + d.1).toNat (y + d.2).toNat)
        (some 0))) (some 0)
    let count := inNbrs.length
    let average := jsDiv total (some ((max 1 count : ℕ) : ℚ))
    jsAdd (jsMul (terrain.getD i (some 0)) (some (1 - blend))) (jsMul average (some blend))

/-- generateBaseTerrain with NaN propagation: the exact per-cell pipeline
of the source, over JS numbers that may be non-finite.  At size = 1 the
normalization nx = x / (size - 1) divides 0 by 0. -/
def generateBaseTerrainN (jm : JsMath) (size : ℕ) (seed : ℚ) : List (Option ℚ) :=
  let terrain := (List.range (size * size)).map fun i =>
    let x : Option ℚ := some ((i % size : ℕ) : ℚ)
    let y : Option ℚ := some ((i / size : ℕ) : ℚ)
    let nx := jsDiv x (some ((size : ℚ) - 1))
    let ny := jsDiv y (some ((size : ℚ) - 1))
    let cx := jsSub (jsMul nx (some 2)) (some 1)
    let cy := jsSub (jsMul ny (some 2)) (some 1)
    let radial := jsLift jm.sqrt (jsAdd (jsMul cx cx) (jsMul cy cy))
    let macroNoise := fractalNoiseN jm (jsAdd (jsMul nx (some 3.4)) (some 14.3))
      (jsAdd (jsMul ny (some 3.4)) (some 8.9)) seed 5 2.08 0.52
    let detail := fractalNoiseN jm (jsAdd (jsMul nx (some 18.8)) (some 71.1))
      (jsAdd (jsMul ny (some 18.8)) (some 39.7)) (seed + 999) 4 2.2 0.46
    let ridgeBase := fractalNoiseN jm (jsAdd (jsMul nx (some 5.7)) (some 2.7))
      (jsAdd (jsMul ny (some 5.7)) (some 6.4)) (seed + 313) 4 2.03 0.5
    let ridges := jsSub (some 1) (jsAbs (jsSub (jsMul ridgeBase (some 2)) (some 1)))
    let warp := jsMul (jsSub (fractalNoiseN jm (jsAdd (jsMul nx (some 7.2)) (some 11.1))
      (jsAdd (jsMul ny (some 7.2)) (some 4.2)) (seed + 1703) 3 2.0 0.5) (some 0.5))
      (some 0.72)
    let continent := jsMul (jsSub macroNoise (some 0.5)) (some 13.8)
    let mountain := jsMul (jsLift2 jm.pow ridges (some 1.35)) (some 8.6)
    let fold := jsMul (jsLift jm.sin (jsMul (jsMul (jsAdd (jsAdd (jsAdd
      (jsMul nx (some 1.45)) (jsMul ny (some 1.2))) (jsMul macroNoise (some 0.8)))
      (some (seed * 0.000012))) (some jm.pi)) (some 2))) (some 1.35)
    let valleyAxis := jsAdd (jsAdd cy warp) (jsMul (jsLift jm.sin
      (jsAdd (jsMul cx (some 3.1)) (some (seed * 0.00021)))) (some 0.2))
    let riverValley := jsMul (jsNeg (jsLift jm.exp (jsNeg (jsLift2 jm.pow
      (jsMul valleyAxis (some 4.2)) (some 2))))) (some 4.5)
    let coastalDrop := jsMul (jsNeg (jsLift2 jm.pow (jsMul (jsMax (some 0)
      (jsSub radial (some 0.7))) (some 3.8)) (some 2))) (some 3.3)
    let micro := jsMul (jsSub detail (some 0.5)) (some 1.9)
    let height := jsAdd (jsAdd (jsAdd (jsAdd (jsAdd continent mountain) fold)
      riverValley) coastalDrop) micro
    jsMin (some MAX_TERRAIN_HEIGHT) (jsMax (some MIN_TERRAIN_HEIGHT) height)
  smoothTerrainN (smoothTerrainN terrain size 0.16) size 0.08

/-- src/core/world.ts: createInitialWorld(size, terrainSeed).  The two
Math.random() calls (default terrain seed and vegetationSeed) are modelled
by the explicit rng argument; the claims pass the terrain seed explicitly,
so only vegetationSeed consumes it. -/
def createInitialWorld (jm : JsMath) (rng : ℚ) (size : ℕ) (terrainSeed : ℚ) :
    WorldState :=
  let terrain := generateBaseTerrain jm size terrainSeed
  { version := 1
    size := size
    terrainSeed := terrainSeed
    terrain := terrain
    water := List.replicate (size * size) 0
    sources := generateInitialSources terrain size
    vegetationSeed := (⌊rng * 10000000⌋ : ℚ)
    time := 0 }

end WorldGen

/-! ## Climate state (src/main.ts) -/

namespace Climate

/-- src/main.ts: ClimateState. -/
structure ClimateState where
  dayPhase : ℚ
  daylight : ℚ
  cloudiness : ℚ
  rainIntensity : ℚ
  windStrength : ℚ
  windDirection : ℚ
  windGustiness : ℚ
deriving Repr, DecidableEq

/-- src/main.ts: WeatherOverride. -/
structure WeatherOverride where
  cloudiness : ℚ
  rainIntensity : ℚ
deriving Repr, DecidableEq

/-- src/main.ts: WindOverride. -/
structure WindOverride where
  strength : ℚ
  direction : ℚ
  gustiness : ℚ
deriving Repr, DecidableEq

/-- src/main.ts: TAU = Math.PI * 2. -/
def TAU (jm : JsMath) : ℚ := jm.pi * 2

/-- src/main.ts: saturate(value) = Math.max(0, Math.min(1, value)). -/
def saturate (value : ℚ) : ℚ := max 0 (min 1 value)

/-- src/main.ts: smoothstep(edge0, edge1, value). -/
def smoothstep (edge0 edge1 value : ℚ) : ℚ :=
  if edge0 = edge1 then (if value < edge0 then 0 else 1)
  else
    let t := saturate ((value - edge0) / (edge1 - edge0))
    t * t * (3 - 2 * t)

/-- JS truncated division used by the % operator. -/
def jsTrunc (q : ℚ) : ℤ := if q < 0 then ⌈q⌉ else ⌊q⌋

/-- JS remainder a % b (sign of the dividend).  The b = 0 case yields NaN in
JS and is unreachable through the claims; it is mapped to 0. -/
def jsMod (a b : ℚ) : ℚ := if b = 0 then 0 else a - b * (jsTrunc (a / b) : ℚ)

/-- src/main.ts: wrapRadians(value).  The Number.isFinite guard never fires
in the rational model. -/
def wrapRadians (jm : JsMath) (value : ℚ) : ℚ :=
  let wrapped := jsMod value (TAU jm)
  if wrapped < 0 then wrapped + TAU jm else wrapped

/-- src/main.ts: createClimateState(time, seed, dayPhase, weatherOverride,
windOverride).  The simulated cloudiness and rain are computed first; an
override, when present, replaces them outright before the wind channel reads
them, exactly as in the source. -/
def createClimateState (jm : JsMath) (time seed dayPhase : ℚ)
    (weatherOverride : Option WeatherOverride)
    (windOverride : Option WindOverride) : ClimateState :=
  let wrappedDayPhase := dayPhase - (⌊dayPhase⌋ : ℚ)
  let sunWave := jm.sin ((wrappedDayPhase - 0.25) * TAU jm)
  let daylight := saturate (0.18 + max 0 sunWave * 0.82)
  let cloudSignalA := jm.sin (time * 0.012 + seed * 0.00017) * 0.5 + 0.5
  let cloudSignalB := jm.sin (time * 0.0045 + seed * 0.00043) * 0.5 + 0.5
  let cloudinessSim := saturate (0.1 + (cloudSignalA * 0.62 + cloudSignalB * 0.38) * 0.78)
  let rainPulse := jm.sin (time * 0.021 + seed * 0.00091) * 0.5 + 0.5
  let rainGate := smoothstep 0.6 0.92 cloudinessSim
  let rainIntensitySim := saturate (rainGate * (0.14 + rainPulse * 0.62))
  let cloudiness :=
    match weatherOverride with
    | some o => saturate o.cloudiness
    | none => cloudinessSim
  let rainIntensity :=
    match weatherOverride with
    | some o => saturate o.rainIntensity
    | none => rainIntensitySim
  let windSignalA := jm.sin (time * 0.0095 + seed * 0.00031) * 0.5 + 0.5
  let windSignalB := jm.sin (time * 0.017 + seed * 0.00073 + cloudiness * 1.4) * 0.5 + 0.5
  let windSignalC := jm.sin (time * 0.004 + seed * 0.0011) * 0.5 + 0.5
  let windStrengthSim := saturate (0.18 + windSignalA * 0.46 + rainIntensity * 0.24)
  let windGustinessSim := saturate (0.15 + windSignalB * 0.54 + rainIntensity * 0.2)
  let windDirectionSim := wrapRadians jm
    (seed * 0.000045 + time * (0.015 + windStrengthSim * 0.008)
      + (windSignalC - 0.5) * 1.4 + (windSignalB - 0.5) * 0.55)
  let windStrength :=
    match windOverride with
    | some o => saturate o.strength
    | none => windStrengthSim
  let windDirection :=
    match windOverride with
    | some o => wrapRadians jm o.direction
    | none => windDirectionSim
  let windGustiness :=
    match windOverride with
    | some o => saturate o.gustiness
    | none => windGustinessSim
  { dayPhase := wrappedDayPhase
    daylight := daylight
    cloudiness := cloudiness
    rainIntensity := rainIntensity
    windStrength := windStrength
    windDirection := windDirection
    windGustiness := windGustiness }

end Climate

/-! ## World persistence (src/persistence/storage.ts)

deserializeWorld receives the result of JSON.parse over the decoded payload
text; that parsed value is modelled by the JVal type below.  JSON itself can
only produce null, booleans, finite numbers, strings, arrays and objects;
the jnan and jundefined constructors additionally model non-finite numbers and
missing properties so the isFiniteNumber guards of the source are exercised
on their whole domain. -/

/-- A parsed JavaScript value. -/
inductive JVal where
  | jnum (q : ℚ)
  | jnan
  | jstr (s : String)
  | jbool (b : Bool)
  | jnull
  | jundefined
  | jarr (items : List JVal)
  | jobj (fields : List (String × JVal))
deriving Repr

/-- typeof v === "object" and v !== null, the shape guard of the source. -/
def JVal.isObjectLike : JVal → Bool
  | .jarr _ => true
  | .jobj _ => true
  | _ => false

/-- Property access world.key: undefined on missing keys and non-objects. -/
def JVal.getField : JVal → String → JVal
  | .jobj fields, key => ((fields.find? fun f => f.1 = key).map fun f => f.2).getD .jundefined
  | _, _ => .jundefined

/-- src/persistence/storage.ts: isFiniteNumber(value). -/
def isFiniteNumber : JVal → Bool
  | .jnum _ => true
  | _ => false

/-- JS ToNumber as applied by Float32Array.from to each array element.
none models a NaN result.  Numeric string coercion is not modelled: every
string maps to none, which is exact for non-numeric strings; no claim
depends on numeric strings. -/
def jsToNumber : JVal → Option ℚ
  | .jnum q => some q
  | .jbool b => some (if b then 1 else 0)
  | .jnull => some 0
  | _ => none

/-- Result shape of deserializeWorld.  size is kept as the raw parsed number
and the arrays keep possibly non-finite entries, because the source does not
validate either. -/
structure JsWorld where
  version : ℚ
  size : ℚ
  terrainSeed : ℚ
  terrain : List (Option ℚ)
  water : List (Option ℚ)
  sources : List WaterSource
  vegetationSeed : ℚ
  time : ℚ
deriving Repr, DecidableEq

/-- src/persistence/storage.ts: validateSources(value). -/
def validateSources (value : JVal) : Except String (List WaterSource) :=
  match value with
  | .jarr items =>
    items.mapM fun item =>
      match item.getField "id", item.getField "x", item.getField "y",
            item.getField "rate", item.getField "active" with
      | .jstr id, .jnum x, .jnum y, .jnum rate, .jbool active =>
        if item.isObjectLike then
          Except.ok { id := id, x := x, y := y, rate := rate, active := active }
        else Except.error "Invalid source entry"
      | _, _, _, _, _ => Except.error "Invalid source entry"
  | _ => Except.error "Invalid source payload"

/-- src/persistence/storage.ts: deserializeWorld(data), from the parsed
payload onward. -/
def deserializeWorld (parsed : JVal) : Except String JsWorld :=
  if parsed.isObjectLike then
    match parsed.getField "version", parsed.getField "size",
          parsed.getField "terrain", parsed.getField "water",
          parsed.getField "vegetationSeed", parsed.getField "time" with
    | .jnum _, .jnum size, .jarr terrain, .jarr water, .jnum veg, .jnum time =>
      if (terrain.length : ℚ) ≠ size * size ∨ (water.length : ℚ) ≠ size * size then
        Except.error "Corrupted world dimensions"
      else
        (validateSources (parsed.getField "sources")).map fun sources =>
          { version := 1
            size := size
            terrainSeed :=
              match parsed.getField "terrainSeed" with
              | .jnum s => s
              | _ => 0
            terrain := terrain.map jsToNumber
            water := water.map jsToNumber
            sources := sources
            vegetationSeed := veg
            time := time }
    | _, _, _, _, _, _ => Except.error "Incomplete world payload"
  else Except.error "Invalid world payload"

/-- The shape guard of deserializeWorld as a standalone predicate: version,
size, vegetationSeed and time are finite numbers and terrain and water are
arrays. -/
def requiredFieldsOk (parsed : JVal) : Bool :=
  match parsed.getField "version", parsed.getField "size",
        parsed.getField "terrain", parsed.getField "water",
        parsed.getField "vegetationSeed", parsed.getField "time" with
  | .jnum _, .jnum _, .jarr _, .jarr _, .jnum _, .jnum _ => true
  | _, _, _, _, _, _ => false

/-- The dimension guard of deserializeWorld, as a standalone predicate. -/
def dimensionsOk (parsed : JVal) : Bool :=
  match parsed.getField "size", parsed.getField "terrain", parsed.getField "water" with
  | .jnum size, .jarr terrain, .jarr water =>
    decide ((terrain.length : ℚ) = size * size) && decide ((water.length : ℚ) = size * size)
  | _, _, _ => false

/-! ## Concrete instances used to evaluate the definitions -/

/-- A concrete platform-math record (every primitive constantly zero);
any deterministic record is admissible for instantiating the theorems. -/
def jm0 : JsMath :=
  { sin := fun _ => 0, exp := fun _ => 0, sqrt := fun _ => 0
    pow := fun _ _ => 0, pi := 0 }

/-- A concrete 2 x 2 world with water and no sources. -/
def w2 : WorldState :=
  { version := 1, size := 2, terrainSeed := 0
    terrain := [0, 0, 0, 0], water := [1, 0, 1/2, 1/4]
    sources := [], vegetationSeed := 0, time := 0 }

/-- Basic flow-only parameters: dt 1, flowRate 1, no losses. -/
def p0 : SimParams :=
  { dt := 1, flowRate := 1, damping := 0, evaporation := 0
    seepage := none, edgeDrain := none }

/-- Parameters with a positive edge drain. -/
def pDrain : SimParams :=
  { dt := 1, flowRate := 1, damping := 0, evaporation := 0
    seepage := some 0, edgeDrain := some 1 }

/-- A dry 2 x 2 world with one active source of rate 1 at cell (1, 0). -/
def w5 : WorldState :=
  { version := 1, size := 2, terrainSeed := 0
    terrain := [0, 0, 0, 0], water := List.replicate 4 0
    sources := [{ id := "source-1", x := 1, y := 0, rate := 1, active := true }]
    vegetationSeed := 0, time := 0 }

/-- Injection-only parameters with dt below the 0.0001 floor of stepWater. -/
def p5tiny : SimParams :=
  { dt := 1/20000, flowRate := 0, damping := 0, evaporation := 0
    seepage := none, edgeDrain := none }

/-- Injection-only parameters with dt 1. -/
def p5 : SimParams :=
  { dt := 1, flowRate := 0, damping := 0, evaporation := 0
    seepage := none, edgeDrain := none }

/-- A 1 x 1 world whose single cell sits at the maximal height 24. -/
def c6world : WorldState :=
  { version := 1, size := 1, terrainSeed := 0
    terrain := [24], water := [0]
    sources := [], vegetationSeed := 0, time := 0 }

/-- Full-strength flatten brush whose target 100 lies above MAX_TERRAIN_HEIGHT. -/
def c6brush : BrushSettings := { radius := 1, strength := 1, flattenHeight := 100 }

/-- A 1 x 1 world at height 0. -/
def c6flatWorld : WorldState :=
  { version := 1, size := 1, terrainSeed := 0
    terrain := [0], water := [0]
    sources := [], vegetationSeed := 0, time := 0 }

/-- Half-strength flatten brush with an in-range target. -/
def c6brushIn : BrushSettings := { radius := 1, strength := 1/2, flattenHeight := 10 }

/-- A well-formed serialized payload whose water array holds a negative
entry; every field the source validates is valid. -/
def c9payload : JVal :=
  .jobj
    [("version", .jnum 1), ("size", .jnum 1), ("terrainSeed", .jnum 7),
     ("terrain", .jarr [.jnum 0]), ("water", .jarr [.jnum (-1)]),
     ("sources", .jarr []), ("vegetationSeed", .jnum 0), ("time", .jnum 0)]

/-! ## Helper lemmas -/

theorem list_sum_map_sub {α : Type} (l : List α) (f g : α → ℚ) :
    (l.map fun a => f a - g a).sum = (l.map f).sum - (l.map g).sum := by
  induction l with
  | nil => simp
  | cons a t ih => simp only [List.map_cons, List.sum_cons, ih]; ring

theorem list_sum_map_ite {α : Type} (l : List α) (c : Prop) [Decidable c] (f : α → ℚ) :
    (l.map fun a => if c then f a else 0).sum = if c then (l.map f).sum else 0 := by
  split <;> simp

theorem finset_sum_list_sum {α β : Type} (s : Finset β) (l : List α) (h : α → β → ℚ) :
    ∑ i ∈ s, (l.map fun a => h a i).sum = (l.map fun a => ∑ i ∈ s, h a i).sum := by
  induction l with
  | nil => simp
  | cons a t ih => simp [Finset.sum_add_distrib, ih]

theorem sum_range_list (n : ℕ) (f : ℕ → ℚ) :
    ((List.range n).map f).sum = ∑ i ∈ Finset.range n, f i := by
  induction n with
  | zero => simp
  | succ n ih =>
    rw [List.range_succ, List.map_append, List.sum_append, Finset.sum_range_succ, ih]
    simp

theorem sum_getD_eq_sum (l : List ℚ) :
    ∑ i ∈ Finset.range l.length, l.getD i 0 = l.sum := by
  induction l with
  | nil => simp
  | cons a t ih =>
    rw [List.length_cons, Finset.sum_range_succ']
    simp only [List.getD_cons_succ, List.getD_cons_zero, List.sum_cons, ih]
    ring

theorem getD_mem_or (l : List ℚ) (i : ℕ) (d : ℚ) : l.getD i d ∈ l ∨ l.getD i d = d := by
  induction l generalizing i with
  | nil => right; simp
  | cons a t ih =>
    cases i with
    | zero => left; simp
    | succ j =>
      rcases ih j with h | h
      · left; simp only [List.getD_cons_succ]; exact List.mem_cons_of_mem a h
      · right; simpa using h

theorem getD_nonneg (l : List ℚ) (h : ∀ a ∈ l, 0 ≤ a) (i : ℕ) : 0 ≤ l.getD i 0 := by
  rcases getD_mem_or l i 0 with hm | he
  · exact h _ hm
  · rw [he]

theorem toIndex_lt {s x y : ℕ} (hx : x < s) (hy : y < s) : toIndex s x y < s * s := by
  unfold toIndex
  calc y * s + x < y * s + s := by omega
    _ = (y + 1) * s := by ring
    _ ≤ s * s := Nat.mul_le_mul_right s hy

theorem toIndex_mod_div (s i : ℕ) : toIndex s (i % s) (i / s) = i := by
  unfold toIndex
  rw [Nat.mul_comm]
  exact Nat.div_add_mod i s

theorem nbrIndex_lt {s x y : ℕ} {d : ℤ × ℤ} {j : ℕ}
    (h : nbrIndex s x y d = some j) : j < s * s := by
  simp only [nbrIndex] at h
  split at h
  · rename_i hb
    obtain ⟨h1, h2, h3, h4⟩ := hb
    injection h with h
    subst h
    exact toIndex_lt (by omega) (by omega)
  · exact absurd h (by simp)

theorem dirPotential_nonneg (t w : List ℚ) (s : ℕ) {fr dtv : ℚ}
    (hfr : 0 ≤ fr) (hdt : 0 ≤ dtv) (x y : ℕ) (d : ℤ × ℤ) :
    0 ≤ dirPotential t w s fr dtv x y d := by
  unfold dirPotential
  cases h : nbrIndex s x y d with
  | none => exact le_refl 0
  | some j =>
    simp only
    split
    · rename_i hdiff
      exact mul_nonneg (mul_nonneg (le_of_lt hdiff) hfr) hdt
    · exact le_refl 0

theorem flowAmount_def (t w : List ℚ) (s : ℕ) (fr dtv : ℚ) (x y : ℕ) (d : ℤ × ℤ) :
    flowAmount t w s fr dtv x y d =
      if w.getD (toIndex s x y) 0 ≤ 0 then 0
      else if totalPotential t w s fr dtv x y ≤ 0 then 0
      else dirPotential t w s fr dtv x y d
        * min 1 (w.getD (toIndex s x y) 0 / totalPotential t w s fr dtv x y) := rfl

theorem flowAmount_nonneg (t w : List ℚ) (s : ℕ) {fr dtv : ℚ}
    (hfr : 0 ≤ fr) (hdt : 0 ≤ dtv) (x y : ℕ) (d : ℤ × ℤ) :
    0 ≤ flowAmount t w s fr dtv x y d := by
  rw [flowAmount_def]
  split
  · exact le_refl 0
  · rename_i hcw
    split
    · exact le_refl 0
    · rename_i htp
      push_neg at hcw htp
      refine mul_nonneg (dirPotential_nonneg t w s hfr hdt x y d) ?_
      exact le_min zero_le_one (div_nonneg (le_of_lt hcw) (le_of_lt htp))

theorem flowAmount_none (t w : List ℚ) (s : ℕ) (fr dtv : ℚ) (x y : ℕ) {d : ℤ × ℤ}
    (h : nbrIndex s x y d = none) : flowAmount t w s fr dtv x y d = 0 := by
  rw [flowAmount_def]
  split
  · rfl
  · split
    · rfl
    · rw [dirPotential, h]
      exact zero_mul _

theorem flowAmount_sum_le (t w : List ℚ) (s : ℕ) (fr dtv : ℚ) (x y : ℕ)
    (hcw : 0 ≤ w.getD (toIndex s x y) 0) :
    (flowDirs.map (flowAmount t w s fr dtv x y)).sum ≤ w.getD (toIndex s x y) 0 := by
  by_cases hc : w.getD (toIndex s x y) 0 ≤ 0
  · have hz : flowAmount t w s fr dtv x y = fun _ => (0 : ℚ) :=
      funext fun d => by rw [flowAmount_def, if_pos hc]
    rw [hz]
    simpa using hcw
  · push_neg at hc
    by_cases ht : totalPotential t w s fr dtv x y ≤ 0
    · have hz : flowAmount t w s fr dtv x y = fun _ => (0 : ℚ) :=
        funext fun d => by rw [flowAmount_def, if_neg (not_le.mpr hc), if_pos ht]
      rw [hz]
      simpa using le_of_lt hc
    · push_neg at ht
      have hz : flowAmount t w s fr dtv x y = fun d =>
          dirPotential t w s fr dtv x y d
            * min 1 (w.getD (toIndex s x y) 0 / totalPotential t w s fr dtv x y) :=
        funext fun d => by rw [flowAmount_def, if_neg (not_le.mpr hc), if_neg (not_le.mpr ht)]
      rw [hz]
      calc (flowDirs.map fun d => dirPotential t w s fr dtv x y d
              * min 1 (w.getD (toIndex s x y) 0 / totalPotential t w s fr dtv x y)).sum
          = totalPotential t w s fr dtv x y
              * min 1 (w.getD (toIndex s x y) 0 / totalPotential t w s fr dtv x y) := by
            rw [List.sum_map_mul_right]
            rfl
        _ ≤ totalPotential t w s fr dtv x y
              * (w.getD (toIndex s x y) 0 / totalPotential t w s fr dtv x y) :=
            mul_le_mul_of_nonneg_left (min_le_right _ _) (le_of_lt ht)
        _ = w.getD (toIndex s x y) 0 := by
            rw [mul_comm, div_mul_cancel₀ _ (ne_of_gt ht)]

theorem sum_grid_index (s i : ℕ) (hi : i < s * s) (g : ℕ → ℕ → ℚ) :
    (∑ y ∈ Finset.range s, ∑ x ∈ Finset.range s, if toIndex s x y = i then g x y else 0)
      = g (i % s) (i / s) := by
  have hs : 0 < s := by
    rcases Nat.eq_zero_or_pos s with h | h
    · subst h; omega
    · exact h
  have hys : i / s < s := Nat.div_lt_of_lt_mul hi
  have hxs : i % s < s := Nat.mod_lt i hs
  rw [Finset.sum_eq_single (i / s)]
  · rw [Finset.sum_eq_single (i % s)]
    · rw [if_pos (toIndex_mod_div s i)]
    · intro x hx hne
      rw [if_neg]
      intro hEq
      apply hne
      unfold toIndex at hEq
      have hmod := Nat.div_add_mod i s
      rw [Nat.mul_comm (i / s) s] at hEq
      exact Nat.add_left_cancel (hEq.trans hmod.symm)
    · intro hno
      exact absurd (Finset.mem_range.mpr hxs) hno
  · intro y hy hne
    refine Finset.sum_eq_zero fun x hx => ?_
    rw [if_neg]
    intro hEq
    apply hne
    unfold toIndex at hEq
    subst hEq
    rw [Nat.add_comm, Nat.add_mul_div_right _ _ hs,
      Nat.div_eq_of_lt (Finset.mem_range.mp hx), Nat.zero_add]
  · intro hno
    exact absurd (Finset.mem_range.mpr hys) hno

theorem waterDelta_eq (t w : List ℚ) (s : ℕ) (fr dtv : ℚ) {i : ℕ} (hi : i < s * s) :
    waterDelta t w s fr dtv i =
      (∑ y ∈ Finset.range s, ∑ x ∈ Finset.range s,
        (flowDirs.map fun d =>
          if nbrIndex s x y d = some i then flowAmount t w s fr dtv x y d else 0).sum)
      - (flowDirs.map (flowAmount t w s fr dtv (i % s) (i / s))).sum := by
  unfold waterDelta
  have step1 : ∀ y ∈ Finset.range s, ∀ x ∈ Finset.range s,
      (flowDirs.map fun d =>
        (if nbrIndex s x y d = some i then flowAmount t w s fr dtv x y d else 0)
        - (if toIndex s x y = i then flowAmount t w s fr dtv x y d else 0)).sum
      = (flowDirs.map fun d =>
          if nbrIndex s x y d = some i then flowAmount t w s fr dtv x y d else 0).sum
        - (if toIndex s x y = i then (flowDirs.map (flowAmount t w s fr dtv x y)).sum else 0) := by
    intro y _ x _
    rw [list_sum_map_sub, list_sum_map_ite]
  calc
    (∑ y ∈ Finset.range s, ∑ x ∈ Finset.range s,
      (flowDirs.map fun d =>
        (if nbrIndex s x y d = some i then flowAmount t w s fr dtv x y d else 0)
        - (if toIndex s x y = i then flowAmount t w s fr dtv x y d else 0)).sum)
      = ∑ y ∈ Finset.range s, ∑ x ∈ Finset.range s,
        ((flowDirs.map fun d =>
          if nbrIndex s x y d = some i then flowAmount t w s fr dtv x y d else 0).sum
        - (if toIndex s x y = i then (flowDirs.map (flowAmount t w s fr dtv x y)).sum else 0)) := by
        refine Finset.sum_congr rfl fun y hy => Finset.sum_congr rfl fun x hx => ?_
        exact step1 y hy x hx
    _ = (∑ y ∈ Finset.range s, ∑ x ∈ Finset.range s,
          (flowDirs.map fun d =>
            if nbrIndex s x y d = some i then flowAmount t w s fr dtv x y d else 0).sum)
        - (∑ y ∈ Finset.range s, ∑ x ∈ Finset.range s,
            if toIndex s x y = i then (flowDirs.map (flowAmount t w s fr dtv x y)).sum else 0) := by
        rw [← Finset.sum_sub_distrib]
        refine Finset.sum_congr rfl fun y _ => ?_
        rw [← Finset.sum_sub_distrib]
    _ = _ := by
        rw [sum_grid_index s i hi]

theorem waterDelta_sum_zero (t w : List ℚ) (s : ℕ) (fr dtv : ℚ) :
    ∑ i ∈ Finset.range (s * s), waterDelta t w s fr dtv i = 0 := by
  have key : ∀ y ∈ Finset.range s, ∀ x ∈ Finset.range s, ∀ d : ℤ × ℤ,
      ∑ i ∈ Finset.range (s * s),
        ((if nbrIndex s x y d = some i then flowAmount t w s fr dtv x y d else 0)
          - (if toIndex s x y = i then flowAmount t w s fr dtv x y d else 0)) = 0 := by
    intro y hy x hx d
    rw [Finset.sum_sub_distrib]
    have hsecond : (∑ i ∈ Finset.range (s * s),
        if toIndex s x y = i then flowAmount t w s fr dtv x y d else 0)
        = flowAmount t w s fr dtv x y d := by
      rw [Finset.sum_ite_eq]
      rw [if_pos (Finset.mem_range.mpr
        (toIndex_lt (Finset.mem_range.mp hx) (Finset.mem_range.mp hy)))]
    cases hnb : nbrIndex s x y d with
    | none =>
      rw [hsecond, flowAmount_none t w s fr dtv x y hnb]
      simp
    | some j =>
      rw [hsecond]
      have hiff : ∀ i : ℕ, ((some j : Option ℕ) = some i) = (j = i) := fun i => by simp
      simp only [hiff]
      rw [Finset.sum_ite_eq, if_pos (Finset.mem_range.mpr (nbrIndex_lt hnb)), sub_self]
  unfold waterDelta
  rw [Finset.sum_comm]
  refine Finset.sum_eq_zero fun y hy => ?_
  rw [Finset.sum_comm]
  refine Finset.sum_eq_zero fun x hx => ?_
  rw [finset_sum_list_sum]
  refine List.sum_eq_zero fun a ha => ?_
  rcases List.mem_map.mp ha with ⟨d, hd, rfl⟩
  exact key y hy x hx d

theorem withFlow_nonneg (t w : List ℚ) (s : ℕ) {fr dtv : ℚ}
    (hfr : 0 ≤ fr) (hdt : 0 ≤ dtv) {i : ℕ} (hi : i < s * s)
    (hw : ∀ a ∈ w, 0 ≤ a) :
    0 ≤ w.getD i 0 + waterDelta t w s fr dtv i := by
  rw [waterDelta_eq t w s fr dtv hi]
  have hA : 0 ≤ ∑ y ∈ Finset.range s, ∑ x ∈ Finset.range s,
      (flowDirs.map fun d =>
        if nbrIndex s x y d = some i then flowAmount t w s fr dtv x y d else 0).sum := by
    refine Finset.sum_nonneg fun y _ => Finset.sum_nonneg fun x _ => ?_
    refine List.sum_nonneg fun a ha => ?_
    rcases List.mem_map.mp ha with ⟨d, hd, rfl⟩
    split
    · exact flowAmount_nonneg t w s hfr hdt x y d
    · exact le_refl 0
  have hB : (flowDirs.map (flowAmount t w s fr dtv (i % s) (i / s))).sum
      ≤ w.getD i 0 := by
    have := flowAmount_sum_le t w s fr dtv (i % s) (i / s)
      (by rw [toIndex_mod_div]; exact getD_nonneg w hw i)
    rwa [toIndex_mod_div] at this
  linarith

theorem injectSources_inactive (size : ℕ) (dtv : ℚ) (sources : List WaterSource)
    (water : List ℚ) (h : ∀ s ∈ sources, s.active = false) :
    injectSources size dtv sources water = water := by
  induction sources generalizing water with
  | nil => rfl
  | cons s rest ih =>
    have hs : s.active = false := h s (List.mem_cons_self s rest)
    have hrest : ∀ s ∈ rest, s.active = false := fun a ha => h a (List.mem_cons_of_mem s ha)
    simp only [injectSources, List.foldl_cons, hs]
    exact ih water hrest

theorem lossAt_nonneg (s : ℕ) (t w1 : List ℚ)
    (fr dtv dampingFactor evaporationLoss seepage edgeDrain : ℚ) (i : ℕ) :
    0 ≤ lossAt s t w1 fr dtv dampingFactor evaporationLoss seepage edgeDrain i :=
  le_max_left 0 _

theorem lossAt_zero_loss (s : ℕ) (t w : List ℚ) {fr dtv : ℚ}
    (hfr : 0 ≤ fr) (hdt : 0 ≤ dtv) {i : ℕ} (hi : i < s * s)
    (hw : ∀ a ∈ w, 0 ≤ a) :
    lossAt s t w fr dtv 1 0 0 0 i = w.getD i 0 + waterDelta t w s fr dtv i := by
  have h0 := withFlow_nonneg t w s hfr hdt hi hw
  simp only [lossAt, mul_one, mul_zero, zero_mul, sub_zero, sub_self, if_pos, ite_self]
  exact max_eq_right h0

theorem stepWater_water (st : WorldState) (p : SimParams) :
    (stepWater st p).water =
      (List.range (st.size * st.size)).map
        (lossAt st.size st.terrain
          (injectSources st.size (max (1/10000) p.dt) st.sources st.water)
          (max 0 p.flowRate) (max (1/10000) p.dt)
          (clamp (1 - max 0 p.damping * max (1/10000) p.dt) 0 1)
          (max 0 p.evaporation * max (1/10000) p.dt)
          (max 0 (p.seepage.getD 0)) (max 0 (p.edgeDrain.getD 0))) := rfl

theorem stepWaterUncond_water (st : WorldState) (p : SimParams) :
    (stepWaterUncond st p).water =
      (List.range (st.size * st.size)).map
        (lossAtUncond st.size st.terrain
          (injectSources st.size (max (1/10000) p.dt) st.sources st.water)
          (max 0 p.flowRate) (max (1/10000) p.dt)
          (clamp (1 - max 0 p.damping * max (1/10000) p.dt) 0 1)
          (max 0 p.evaporation * max (1/10000) p.dt)
          (max 0 (p.seepage.getD 0)) (max 0 (p.edgeDrain.getD 0))) := rfl

theorem max_guarded_drain (N e : ℚ) (P : Prop) [Decidable P] (he : 0 ≤ e) :
    max 0 (if P ∧ 0 < N then N - e else N) = max 0 (if P then N - e else N) := by
  by_cases hP : P
  · by_cases hN : 0 < N
    · rw [if_pos ⟨hP, hN⟩, if_pos hP]
    · rw [if_neg (fun h => hN h.2), if_pos hP]
      push_neg at hN
      rw [max_eq_left hN, max_eq_left (by linarith)]
  · rw [if_neg (fun h => hP h.1), if_neg hP]

theorem lossAt_eq_uncond (s : ℕ) (t w1 : List ℚ)
    (fr dtv dampingFactor evaporationLoss seepage edgeDrain : ℚ)
    (hedge : 0 ≤ edgeDrain * dtv) (i : ℕ) :
    lossAt s t w1 fr dtv dampingFactor evaporationLoss seepage edgeDrain i
      = lossAtUncond s t w1 fr dtv dampingFactor evaporationLoss seepage edgeDrain i := by
  simp only [lossAt, lossAtUncond]
  exact max_guarded_drain _ _ _ hedge

/-! ## Claim theorems -/

/-- C1.  For every WorldState with non-negative water, matching array length
and no active sources, one stepWater call with damping = 0, evaporation = 0,
seepage = 0 and edgeDrain = 0 leaves totalWater exactly unchanged, for any
flowRate and dt: the flow-redistribution deltas sum to zero globally. -/
theorem stepWater_flow_conserves_totalWater (st : WorldState) (p : SimParams)
    (hw : ∀ a ∈ st.water, 0 ≤ a)
    (hlen : st.water.length = st.size * st.size)
    (hsrc : ∀ s ∈ st.sources, s.active = false)
    (hd : p.damping = 0) (he : p.evaporation = 0)
    (hs : p.seepage.getD 0 = 0) (hed : p.edgeDrain.getD 0 = 0) :
    totalWater (stepWater st p) = totalWater st := by
  have hdt : (0 : ℚ) ≤ max (1/10000) p.dt := le_trans (by norm_num) (le_max_left _ _)
  have hfr : (0 : ℚ) ≤ max 0 p.flowRate := le_max_left _ _
  have hinj := injectSources_inactive st.size (max (1/10000) p.dt) st.sources st.water hsrc
  have hdf : clamp (1 - max 0 p.damping * max (1/10000) p.dt) 0 1 = 1 := by
    rw [hd]
    norm_num [clamp]
  have hev : max 0 p.evaporation * max (1/10000) p.dt = 0 := by
    rw [he]
    norm_num
  have hsee : max 0 (p.seepage.getD 0) = 0 := by
    rw [hs]
    exact max_self 0
  have hedr : max 0 (p.edgeDrain.getD 0) = 0 := by
    rw [hed]
    exact max_self 0
  unfold totalWater
  rw [stepWater_water, hinj, hdf, hev, hsee, hedr, sum_range_list]
  have hcong := Finset.sum_congr rfl fun i hi =>
    lossAt_zero_loss st.size st.terrain st.water hfr hdt (Finset.mem_range.mp hi) hw
  rw [hcong, Finset.sum_add_distrib, waterDelta_sum_zero, add_zero, ← hlen,
    sum_getD_eq_sum]

/-- Witness for C1: a concrete 2 x 2 world with uneven water and flow-only
parameters conserves total water. -/
theorem stepWater_flow_conserves_totalWater_witness :
    totalWater (stepWater w2 p0) = totalWater w2 :=
  stepWater_flow_conserves_totalWater w2 p0 (by with_unfolding_all decide)
    (by with_unfolding_all decide) (by with_unfolding_all decide)
    (by with_unfolding_all decide) (by with_unfolding_all decide)
    (by with_unfolding_all decide) (by with_unfolding_all decide)

/-- C2.  Starting from any world with non-negative water, any sequence of
stepWater calls with arbitrary parameters leaves every water cell
non-negative: the loss pass ends in a floor clamp at 0. -/
theorem stepWater_water_nonneg (st : WorldState) (ps : List SimParams)
    (h0 : ∀ a ∈ st.water, 0 ≤ a) :
    ∀ i : ℕ, 0 ≤ (ps.foldl stepWater st).water.getD i 0 := by
  have key : ∀ (stA : WorldState) (p : SimParams), ∀ a ∈ (stepWater stA p).water, 0 ≤ a := by
    intro stA p a ha
    rw [stepWater_water] at ha
    rcases List.mem_map.mp ha with ⟨j, hj, rfl⟩
    exact lossAt_nonneg _ _ _ _ _ _ _ _ _ _
  induction ps generalizing st with
  | nil => exact fun i => getD_nonneg _ h0 i
  | cons p rest ih =>
    intro i
    simp only [List.foldl_cons]
    exact ih (stepWater st p) (key st p) i

/-- Witness for C2: the concrete 2 x 2 world stepped once keeps cell 0
non-negative. -/
theorem stepWater_water_nonneg_witness :
    0 ≤ (([p0] : List SimParams).foldl stepWater w2).water.getD 0 0 :=
  stepWater_water_nonneg w2 [p0] (by with_unfolding_all decide) 0

/-- C3.  Terrain generation is deterministic: createInitialWorld with the
same size and seed yields identical terrain arrays and identical initial
source lists, for every platform-math record and regardless of the random
values consumed for vegetationSeed. -/
theorem createInitialWorld_deterministic (jm : JsMath) (size : ℕ) (seed : ℚ)
    (rngA rngB : ℚ) :
    (WorldGen.createInitialWorld jm rngA size seed).terrain
        = (WorldGen.createInitialWorld jm rngB size seed).terrain
      ∧ (WorldGen.createInitialWorld jm rngA size seed).sources
        = (WorldGen.createInitialWorld jm rngB size seed).sources :=
  ⟨rfl, rfl⟩

/-- C7.  The guarded edge-drain subtraction of stepWater is behaviorally
equivalent to subtracting the edge drain unconditionally on border cells
before the floor clamp: for non-negative parameters the two step functions
agree on the whole resulting state. -/
theorem stepWater_edgeDrain_guard_equiv (st : WorldState) (p : SimParams)
    (hdt : 0 ≤ p.dt) (hfr : 0 ≤ p.flowRate) (hdamp : 0 ≤ p.damping)
    (hev : 0 ≤ p.evaporation) (hse : 0 ≤ p.seepage.getD 0)
    (hed : 0 ≤ p.edgeDrain.getD 0) :
    stepWater st p = stepWaterUncond st p := by
  have hedge : 0 ≤ max 0 (p.edgeDrain.getD 0) * max (1/10000 : ℚ) p.dt :=
    mul_nonneg (le_max_left _ _) (le_trans (by norm_num) (le_max_left _ _))
  have hAB : (stepWater st p).water = (stepWaterUncond st p).water := by
    rw [stepWater_water, stepWaterUncond_water]
    have hfun : lossAt st.size st.terrain
        (injectSources st.size (max (1/10000) p.dt) st.sources st.water)
        (max 0 p.flowRate) (max (1/10000) p.dt)
        (clamp (1 - max 0 p.damping * max (1/10000) p.dt) 0 1)
        (max 0 p.evaporation * max (1/10000) p.dt)
        (max 0 (p.seepage.getD 0)) (max 0 (p.edgeDrain.getD 0))
        = lossAtUncond st.size st.terrain
        (injectSources st.size (max (1/10000) p.dt) st.sources st.water)
        (max 0 p.flowRate) (max (1/10000) p.dt)
        (clamp (1 - max 0 p.damping * max (1/10000) p.dt) 0 1)
        (max 0 p.evaporation * max (1/10000) p.dt)
        (max 0 (p.seepage.getD 0)) (max 0 (p.edgeDrain.getD 0)) :=
      funext fun i => lossAt_eq_uncond st.size st.terrain
        (injectSources st.size (max (1/10000) p.dt) st.sources st.water)
        (max 0 p.flowRate) (max (1/10000) p.dt)
        (clamp (1 - max 0 p.damping * max (1/10000) p.dt) 0 1)
        (max 0 p.evaporation * max (1/10000) p.dt)
        (max 0 (p.seepage.getD 0)) (max 0 (p.edgeDrain.getD 0)) hedge i
    rw [hfun]
  exact congrArg (fun w => { st with water := w }) hAB

/-- Witness for C7: the 2 x 2 world with a positive edge drain produces the
same state through both loss-pass variants. -/
theorem stepWater_edgeDrain_guard_equiv_witness :
    stepWater w2 pDrain = stepWaterUncond w2 pDrain :=
  stepWater_edgeDrain_guard_equiv w2 pDrain (by with_unfolding_all decide)
    (by with_unfolding_all decide) (by with_unfolding_all decide)
    (by with_unfolding_all decide) (by with_unfolding_all decide)
    (by with_unfolding_all decide)

theorem jsRound_natCast (n : ℕ) : jsRound (n : ℚ) = (n : ℤ) := by
  unfold jsRound
  rw [Int.floor_eq_iff]
  constructor
  · push_cast
    linarith
  · push_cast
    linarith

theorem getD_set_self (l : List ℚ) (j : ℕ) (v : ℚ) (h : j < l.length) :
    (l.set j v).getD j 0 = v := by
  induction l generalizing j with
  | nil => simp at h
  | cons a t ih =>
    cases j with
    | zero => rfl
    | succ k =>
      simp only [List.set_cons_succ, List.getD_cons_succ]
      exact ih k (by simpa using h)

theorem getD_set_ne (l : List ℚ) (i j : ℕ) (v : ℚ) (h : i ≠ j) :
    (l.set j v).getD i 0 = l.getD i 0 := by
  induction l generalizing i j with
  | nil => simp
  | cons a t ih =>
    cases j with
    | zero =>
      cases i with
      | zero => exact absurd rfl h
      | succ k => rfl
    | succ m =>
      cases i with
      | zero => rfl
      | succ k =>
        simp only [List.set_cons_succ, List.getD_cons_succ]
        exact ih k m (fun hk => h (by rw [hk]))

theorem getD_replicate (n i : ℕ) : (List.replicate n (0 : ℚ)).getD i 0 = 0 := by
  rcases getD_mem_or (List.replicate n (0 : ℚ)) i 0 with hm | he
  · exact List.eq_of_mem_replicate hm
  · exact he

theorem getD_map_range (n : ℕ) (f : ℕ → ℚ) {i : ℕ} (h : i < n) :
    ((List.range n).map f).getD i 0 = f i := by
  rw [List.getD_eq_getElem?_getD, List.getElem?_map, List.getElem?_range h]
  rfl

theorem dirPotential_fr_zero (t w : List ℚ) (s : ℕ) (dtv : ℚ) (x y : ℕ) (d : ℤ × ℤ) :
    dirPotential t w s 0 dtv x y d = 0 := by
  unfold dirPotential
  cases h : nbrIndex s x y d with
  | none => rfl
  | some j => simp

theorem totalPotential_fr_zero (t w : List ℚ) (s : ℕ) (dtv : ℚ) (x y : ℕ) :
    totalPotential t w s 0 dtv x y = 0 := by
  unfold totalPotential
  refine List.sum_eq_zero fun a ha => ?_
  rcases List.mem_map.mp ha with ⟨d, hd, rfl⟩
  exact dirPotential_fr_zero t w s dtv x y d

theorem flowAmount_fr_zero (t w : List ℚ) (s : ℕ) (dtv : ℚ) (x y : ℕ) (d : ℤ × ℤ) :
    flowAmount t w s 0 dtv x y d = 0 := by
  rw [flowAmount_def, totalPotential_fr_zero]
  simp

theorem waterDelta_fr_zero (t w : List ℚ) (s : ℕ) (dtv : ℚ) (i : ℕ) :
    waterDelta t w s 0 dtv i = 0 := by
  unfold waterDelta
  refine Finset.sum_eq_zero fun y _ => Finset.sum_eq_zero fun x _ => ?_
  refine List.sum_eq_zero fun a ha => ?_
  rcases List.mem_map.mp ha with ⟨d, hd, rfl⟩
  rw [flowAmount_fr_zero]
  simp

theorem lossAt_injection_only (s : ℕ) (t w1 : List ℚ) (dtv : ℚ) (i : ℕ) :
    lossAt s t w1 0 dtv 1 0 0 0 i = max 0 (w1.getD i 0) := by
  simp only [lossAt, waterDelta_fr_zero, add_zero, mul_one, mul_zero, zero_mul,
    sub_zero, ite_self]

/-- Evaluation of stepWater on a world with a single active source and no
water, under zero flow and loss coefficients: the source cell receives
rate * max(0.0001, dt) and every other cell stays at 0. -/
theorem stepWater_single_source_spec (st : WorldState) (p : SimParams)
    (x0 y0 : ℕ) (hx : x0 < st.size) (hy : y0 < st.size) (r : ℚ) (hr : 0 ≤ r)
    (idv : String)
    (hsrc : st.sources = [⟨idv, (x0 : ℚ), (y0 : ℚ), r, true⟩])
    (hwater : st.water = List.replicate (st.size * st.size) 0)
    (hfr : p.flowRate = 0) (hd : p.damping = 0) (he : p.evaporation = 0)
    (hs : p.seepage.getD 0 = 0) (hed : p.edgeDrain.getD 0 = 0) :
    (stepWater st p).water.getD (toIndex st.size x0 y0) 0 = r * max (1/10000) p.dt
      ∧ ∀ i < st.size * st.size, i ≠ toIndex st.size x0 y0 →
          (stepWater st p).water.getD i 0 = 0 := by
  have hj : toIndex st.size x0 y0 < st.size * st.size := toIndex_lt hx hy
  have hdt : (0 : ℚ) ≤ max (1/10000) p.dt := le_trans (by norm_num) (le_max_left _ _)
  have hrateVal : (0 : ℚ) ≤ max 0 r * max (1/10000) p.dt :=
    mul_nonneg (le_max_left _ _) hdt
  have hbounds : inBounds st.size (jsRound ((x0 : ℕ) : ℚ)) (jsRound ((y0 : ℕ) : ℚ)) := by
    rw [jsRound_natCast, jsRound_natCast]
    exact ⟨by omega, by exact_mod_cast hx, by omega, by exact_mod_cast hy⟩
  have hinj : injectSources st.size (max (1/10000) p.dt) st.sources st.water
      = (List.replicate (st.size * st.size) 0).set (toIndex st.size x0 y0)
          ((List.replicate (st.size * st.size) (0 : ℚ)).getD (toIndex st.size x0 y0) 0
            + max 0 r * max (1/10000) p.dt) := by
    rw [hsrc, hwater]
    simp only [injectSources, List.foldl_cons, List.foldl_nil, if_pos hbounds]
    rw [jsRound_natCast, jsRound_natCast, Int.toNat_natCast, Int.toNat_natCast,
      if_pos trivial]
  have hfr0 : max 0 p.flowRate = 0 := by
    rw [hfr]
    exact max_self 0
  have hdf : clamp (1 - max 0 p.damping * max (1/10000) p.dt) 0 1 = 1 := by
    rw [hd]
    norm_num [clamp]
  have hev : max 0 p.evaporation * max (1/10000) p.dt = 0 := by
    rw [he]
    norm_num
  have hsee : max 0 (p.seepage.getD 0) = 0 := by
    rw [hs]
    exact max_self 0
  have hedr : max 0 (p.edgeDrain.getD 0) = 0 := by
    rw [hed]
    exact max_self 0
  have hwval : ∀ i : ℕ, (injectSources st.size (max (1/10000) p.dt) st.sources st.water).getD i 0
      = if i = toIndex st.size x0 y0 then max 0 r * max (1/10000) p.dt else 0 := by
    intro i
    rw [hinj, getD_replicate]
    by_cases hii : i = toIndex st.size x0 y0
    · subst hii
      rw [if_pos rfl, getD_set_self, zero_add]
      rw [List.length_replicate]
      exact hj
    · rw [if_neg hii, getD_set_ne _ _ _ _ hii, getD_replicate]
  constructor
  · rw [stepWater_water, hfr0, hdf, hev, hsee, hedr,
      getD_map_range _ _ hj, lossAt_injection_only, hwval, if_pos rfl,
      max_eq_right hrateVal, max_eq_right hr]
  · intro i hi hne
    rw [stepWater_water, hfr0, hdf, hev, hsee, hedr,
      getD_map_range _ _ hi, lossAt_injection_only, hwval, if_neg hne]
    exact max_self 0

/-- C5 counterexample.  With dt = 1/20000 below the 0.0001 floor that
stepWater applies, the injected amount is rate * 0.0001, not rate * dt:
the source cell of w5 receives 1/10000, while the claim predicts
1 * (1/20000). -/
theorem stepWater_source_injection_counterexample :
    (stepWater w5 p5tiny).water.getD (toIndex 2 1 0) 0 = 1/10000
      ∧ (stepWater w5 p5tiny).water.getD (toIndex 2 1 0) 0 ≠ 1 * (1/20000 : ℚ) := by
  have h := (stepWater_single_source_spec w5 p5tiny 1 0 (by norm_num [w5])
    (by norm_num [w5]) 1 (by norm_num) "source-1" (by norm_num [w5])
    (by norm_num [w5]) (by norm_num [p5tiny]) (by norm_num [p5tiny])
    (by norm_num [p5tiny]) (by norm_num [p5tiny]) (by norm_num [p5tiny])).1
  have hmax : max (1/10000 : ℚ) p5tiny.dt = 1/10000 := by
    norm_num [p5tiny]
  rw [show w5.size = 2 from rfl] at h
  rw [h, hmax]
  norm_num

/-- C5 amended.  For a world with exactly one active source at in-bounds
cell (x0, y0) with rate r at least 0, all water zero, one stepWater call
with zero flow and loss coefficients puts exactly r * max(0.0001, dt) water
in that cell (equal to r * dt whenever dt is at least the 0.0001 floor) and
leaves every other cell at 0. -/
theorem stepWater_source_injection (st : WorldState) (p : SimParams)
    (x0 y0 : ℕ) (hx : x0 < st.size) (hy : y0 < st.size) (r : ℚ) (hr : 0 ≤ r)
    (idv : String)
    (hsrc : st.sources = [⟨idv, (x0 : ℚ), (y0 : ℚ), r, true⟩])
    (hwater : st.water = List.replicate (st.size * st.size) 0)
    (hfr : p.flowRate = 0) (hd : p.damping = 0) (he : p.evaporation = 0)
    (hs : p.seepage.getD 0 = 0) (hed : p.edgeDrain.getD 0 = 0) :
    (stepWater st p).water.getD (toIndex st.size x0 y0) 0 = r * max (1/10000) p.dt
      ∧ ∀ i < st.size * st.size, i ≠ toIndex st.size x0 y0 →
          (stepWater st p).water.getD i 0 = 0 :=
  stepWater_single_source_spec st p x0 y0 hx hy r hr idv hsrc hwater hfr hd he hs hed

/-- Witness for the amended C5: in the dry 2 x 2 world, one step with dt 1
puts exactly 1 * max(0.0001, 1) water at cell (1, 0). -/
theorem stepWater_source_injection_witness :
    (stepWater w5 p5).water.getD (toIndex w5.size 1 0) 0 = 1 * max (1/10000) p5.dt :=
  (stepWater_source_injection w5 p5 1 0 (by norm_num [w5]) (by norm_num [w5])
    1 (by norm_num) "source-1" (by norm_num [w5]) (by norm_num [w5])
    (by norm_num [p5]) (by norm_num [p5]) (by norm_num [p5])
    (by norm_num [p5]) (by norm_num [p5])).1

theorem toIndex_mod (s x y : ℕ) (hx : x < s) : toIndex s x y % s = x := by
  unfold toIndex
  rw [Nat.add_comm, Nat.add_mul_mod_self_right]
  exact Nat.mod_eq_of_lt hx

theorem toIndex_div (s x y : ℕ) (hx : x < s) (hs : 0 < s) : toIndex s x y / s = y := by
  unfold toIndex
  rw [Nat.add_comm, Nat.add_mul_div_right _ _ hs, Nat.div_eq_of_lt hx, Nat.zero_add]

theorem clamp_mem (v lo hi : ℚ) (h : lo ≤ hi) :
    lo ≤ clamp v lo hi ∧ clamp v lo hi ≤ hi := by
  unfold clamp
  exact ⟨le_min h (le_max_left lo v), min_le_left _ _⟩

theorem clamp_of_mem (v lo hi : ℚ) (h1 : lo ≤ v) (h2 : v ≤ hi) : clamp v lo hi = v := by
  unfold clamp
  rw [max_eq_right h1, min_eq_right h2]

/-- One flatten application at full falloff moves the height toward the
target by the factor (1 - strength) without overshooting. -/
theorem flatten_step_contracts (h F sv : ℚ) (hs1 : 1/100 ≤ sv) (hs2 : sv ≤ 1) :
    |h + (F - h) * sv - F| ≤ |h - F|
      ∧ (h ≠ F → |h + (F - h) * sv - F| < |h - F|)
      ∧ min h F ≤ h + (F - h) * sv ∧ h + (F - h) * sv ≤ max h F := by
  have hEq : h + (F - h) * sv - F = (h - F) * (1 - sv) := by ring
  have h1 : 0 ≤ 1 - sv := by linarith
  have hs0 : 0 ≤ sv := le_trans (by norm_num) hs1
  refine ⟨?_, ?_, ?_, ?_⟩
  · rw [hEq, abs_mul, abs_of_nonneg h1]
    calc |h - F| * (1 - sv) ≤ |h - F| * 1 :=
        mul_le_mul_of_nonneg_left (by linarith) (abs_nonneg _)
      _ = |h - F| := mul_one _
  · intro hne
    rw [hEq, abs_mul, abs_of_nonneg h1]
    have hpos : 0 < |h - F| := abs_pos.mpr (sub_ne_zero.mpr hne)
    calc |h - F| * (1 - sv) < |h - F| * 1 :=
        mul_lt_mul_of_pos_left (by linarith) hpos
      _ = |h - F| := mul_one _
  · rcases le_total h F with hle | hle
    · rw [min_eq_left hle]
      have := mul_nonneg (sub_nonneg.mpr hle) hs0
      linarith
    · rw [min_eq_right hle]
      have := mul_nonneg (sub_nonneg.mpr hle) h1
      nlinarith
  · rcases le_total h F with hle | hle
    · rw [max_eq_right hle]
      have := mul_nonneg (sub_nonneg.mpr hle) h1
      nlinarith
    · rw [max_eq_left hle]
      have := mul_nonneg (sub_nonneg.mpr hle) hs0
      linarith

/-- Evaluation of applyBrush with the flatten tool at an in-bounds integer
center: the center cell has distance 0, full falloff, and moves toward the
target by the clamped strength before the final height clamp. -/
theorem applyBrush_flatten_center_eval (jm : JsMath) (st : WorldState)
    (cx cy : ℕ) (brush : BrushSettings) (hsq : jm.sqrt 0 = 0)
    (hx : cx < st.size) (hy : cy < st.size) :
    (applyBrush jm st (cx : ℚ) (cy : ℚ) ToolMode.flatten brush).terrain.getD
        (toIndex st.size cx cy) 0
      = clamp (st.terrain.getD (toIndex st.size cx cy) 0
          + (brush.flattenHeight - st.terrain.getD (toIndex st.size cx cy) 0)
            * clamp brush.strength (1/100) 1)
          MIN_TERRAIN_HEIGHT MAX_TERRAIN_HEIGHT := by
  have hs : 0 < st.size := lt_of_le_of_lt (Nat.zero_le cx) hx
  have hj : toIndex st.size cx cy < st.size * st.size := toIndex_lt hx hy
  have hrad : (1 : ℚ) ≤ max 1 brush.radius := le_max_left _ _
  have hguard : max 0 ⌊(cx : ℚ) - max 1 brush.radius⌋ ≤ ((cx : ℕ) : ℤ)
      ∧ ((cx : ℕ) : ℤ) ≤ min ((st.size : ℤ) - 1) ⌈(cx : ℚ) + max 1 brush.radius⌉
      ∧ max 0 ⌊(cy : ℚ) - max 1 brush.radius⌋ ≤ ((cy : ℕ) : ℤ)
      ∧ ((cy : ℕ) : ℤ) ≤ min ((st.size : ℤ) - 1) ⌈(cy : ℚ) + max 1 brush.radius⌉ := by
    have hxz : ((cx : ℕ) : ℤ) < (st.size : ℤ) := by exact_mod_cast hx
    have hyz : ((cy : ℕ) : ℤ) < (st.size : ℤ) := by exact_mod_cast hy
    refine ⟨max_le (by omega) ?_, le_min (by omega) ?_, max_le (by omega) ?_,
      le_min (by omega) ?_⟩
    · calc ⌊(cx : ℚ) - max 1 brush.radius⌋ ≤ ⌊(cx : ℚ)⌋ :=
          Int.floor_le_floor (by linarith)
        _ = ((cx : ℕ) : ℤ) := Int.floor_natCast cx
    · calc ((cx : ℕ) : ℤ) = ⌈((cx : ℕ) : ℚ)⌉ := (Int.ceil_natCast cx).symm
        _ ≤ ⌈(cx : ℚ) + max 1 brush.radius⌉ := Int.ceil_le_ceil (by linarith)
    · calc ⌊(cy : ℚ) - max 1 brush.radius⌋ ≤ ⌊(cy : ℚ)⌋ :=
          Int.floor_le_floor (by linarith)
        _ = ((cy : ℕ) : ℤ) := Int.floor_natCast cy
    · calc ((cy : ℕ) : ℤ) = ⌈((cy : ℕ) : ℚ)⌉ := (Int.ceil_natCast cy).symm
        _ ≤ ⌈(cy : ℚ) + max 1 brush.radius⌉ := Int.ceil_le_ceil (by linarith)
  simp only [applyBrush, reduceCtorEq, if_false]
  rw [getD_map_range _ _ hj, toIndex_mod st.size cx cy hx, toIndex_div st.size cx cy hx hs]
  rw [if_pos hguard]
  have hdx : (((cx : ℕ) : ℤ) : ℚ) - (cx : ℚ) = 0 := by push_cast; ring
  have hdy : (((cy : ℕ) : ℤ) : ℚ) - (cy : ℚ) = 0 := by push_cast; ring
  rw [hdx, hdy]
  have hzero : (0 : ℚ) * 0 + 0 * 0 = 0 := by ring
  rw [hzero, hsq]
  rw [if_neg (not_lt.mpr (by linarith : (0 : ℚ) ≤ max 1 brush.radius))]
  rw [zero_div, sub_zero, one_mul]

/-- C6 counterexample.  With flattenHeight 100 above MAX_TERRAIN_HEIGHT and
the center cell already at the 24 cap, a full-strength flatten stroke leaves
|height - flattenHeight| unchanged even though height differs from the
target: the claimed strict decrease fails. -/
theorem applyBrush_flatten_counterexample :
    c6world.terrain.getD (toIndex c6world.size 0 0) 0 ≠ c6brush.flattenHeight
      ∧ |(applyBrush jm0 c6world 0 0 ToolMode.flatten c6brush).terrain.getD
            (toIndex c6world.size 0 0) 0 - c6brush.flattenHeight|
        = |c6world.terrain.getD (toIndex c6world.size 0 0) 0 - c6brush.flattenHeight| := by
  have h := applyBrush_flatten_center_eval jm0 c6world 0 0 c6brush rfl
    (by norm_num [c6world]) (by norm_num [c6world])
  rw [show ((0 : ℕ) : ℚ) = (0 : ℚ) from Nat.cast_zero] at h
  constructor
  · norm_num [c6world, c6brush, toIndex]
  · rw [h]
    norm_num [c6world, c6brush, toIndex, clamp, MIN_TERRAIN_HEIGHT, MAX_TERRAIN_HEIGHT]

/-- C6 amended.  For an in-bounds integer center whose current height obeys
the terrain bounds and a flatten target within [MIN_TERRAIN_HEIGHT,
MAX_TERRAIN_HEIGHT], each flatten application brings the center height
closer to the target, strictly when they differ, and never overshoots past
the target. -/
theorem applyBrush_flatten_contracts (jm : JsMath) (st : WorldState)
    (cx cy : ℕ) (brush : BrushSettings) (hsq : jm.sqrt 0 = 0)
    (hx : cx < st.size) (hy : cy < st.size)
    (hlo : MIN_TERRAIN_HEIGHT ≤ st.terrain.getD (toIndex st.size cx cy) 0)
    (hhi : st.terrain.getD (toIndex st.size cx cy) 0 ≤ MAX_TERRAIN_HEIGHT)
    (hFlo : MIN_TERRAIN_HEIGHT ≤ brush.flattenHeight)
    (hFhi : brush.flattenHeight ≤ MAX_TERRAIN_HEIGHT) :
    |(applyBrush jm st (cx : ℚ) (cy : ℚ) ToolMode.flatten brush).terrain.getD
        (toIndex st.size cx cy) 0 - brush.flattenHeight|
      ≤ |st.terrain.getD (toIndex st.size cx cy) 0 - brush.flattenHeight|
    ∧ (st.terrain.getD (toIndex st.size cx cy) 0 ≠ brush.flattenHeight →
        |(applyBrush jm st (cx : ℚ) (cy : ℚ) ToolMode.flatten brush).terrain.getD
            (toIndex st.size cx cy) 0 - brush.flattenHeight|
          < |st.terrain.getD (toIndex st.size cx cy) 0 - brush.flattenHeight|)
    ∧ min (st.terrain.getD (toIndex st.size cx cy) 0) brush.flattenHeight
        ≤ (applyBrush jm st (cx : ℚ) (cy : ℚ) ToolMode.flatten brush).terrain.getD
            (toIndex st.size cx cy) 0
    ∧ (applyBrush jm st (cx : ℚ) (cy : ℚ) ToolMode.flatten brush).terrain.getD
          (toIndex st.size cx cy) 0
        ≤ max (st.terrain.getD (toIndex st.size cx cy) 0) brush.flattenHeight := by
  have hsv := clamp_mem brush.strength (1/100) 1 (by norm_num)
  have hstep := flatten_step_contracts (st.terrain.getD (toIndex st.size cx cy) 0)
    brush.flattenHeight (clamp brush.strength (1/100) 1) hsv.1 hsv.2
  have hinRange : MIN_TERRAIN_HEIGHT ≤ st.terrain.getD (toIndex st.size cx cy) 0
      + (brush.flattenHeight - st.terrain.getD (toIndex st.size cx cy) 0)
        * clamp brush.strength (1/100) 1
      ∧ st.terrain.getD (toIndex st.size cx cy) 0
      + (brush.flattenHeight - st.terrain.getD (toIndex st.size cx cy) 0)
        * clamp brush.strength (1/100) 1 ≤ MAX_TERRAIN_HEIGHT := by
    constructor
    · calc MIN_TERRAIN_HEIGHT
          ≤ min (st.terrain.getD (toIndex st.size cx cy) 0) brush.flattenHeight :=
            le_min hlo hFlo
        _ ≤ _ := hstep.2.2.1
    · calc st.terrain.getD (toIndex st.size cx cy) 0
          + (brush.flattenHeight - st.terrain.getD (toIndex st.size cx cy) 0)
            * clamp brush.strength (1/100) 1
          ≤ max (st.terrain.getD (toIndex st.size cx cy) 0) brush.flattenHeight :=
            hstep.2.2.2
        _ ≤ MAX_TERRAIN_HEIGHT := max_le hhi hFhi
  rw [applyBrush_flatten_center_eval jm st cx cy brush hsq hx hy,
    clamp_of_mem _ _ _ hinRange.1 hinRange.2]
  exact hstep

/-- Witness for the amended C6: flattening the 1 x 1 zero world toward
target 10 at half strength strictly shrinks the distance to the target. -/
theorem applyBrush_flatten_contracts_witness :
    |(applyBrush jm0 c6flatWorld 0 0 ToolMode.flatten c6brushIn).terrain.getD
        (toIndex c6flatWorld.size 0 0) 0 - c6brushIn.flattenHeight|
      ≤ |c6flatWorld.terrain.getD (toIndex c6flatWorld.size 0 0) 0
          - c6brushIn.flattenHeight| := by
  have h := (applyBrush_flatten_contracts jm0 c6flatWorld 0 0 c6brushIn rfl
    (by norm_num [c6flatWorld]) (by norm_num [c6flatWorld])
    (by norm_num [c6flatWorld, toIndex, MIN_TERRAIN_HEIGHT])
    (by norm_num [c6flatWorld, toIndex, MAX_TERRAIN_HEIGHT])
    (by norm_num [c6brushIn, MIN_TERRAIN_HEIGHT])
    (by norm_num [c6brushIn, MAX_TERRAIN_HEIGHT])).1
  rw [show ((0 : ℕ) : ℚ) = (0 : ℚ) from Nat.cast_zero] at h
  exact h

theorem list_sum_le_bounds (l : List ℚ) (lo hi : ℚ) (h : ∀ a ∈ l, lo ≤ a ∧ a ≤ hi) :
    lo * l.length ≤ l.sum ∧ l.sum ≤ hi * l.length := by
  induction l with
  | nil => simp
  | cons a t ih =>
    have ha := h a (List.mem_cons_self a t)
    have ht := ih fun b hb => h b (List.mem_cons_of_mem a hb)
    simp only [List.sum_cons, List.length_cons]
    push_cast
    constructor <;> [linarith [ht.1, ha.1]; linarith [ht.2, ha.2]]

theorem getD_bounds_of_mem (l : List ℚ) (lo hi : ℚ) (hlo : lo ≤ 0) (hhi : 0 ≤ hi)
    (h : ∀ v ∈ l, lo ≤ v ∧ v ≤ hi) : ∀ i : ℕ, lo ≤ l.getD i 0 ∧ l.getD i 0 ≤ hi := by
  intro i
  rcases getD_mem_or l i 0 with hm | he
  · exact h _ hm
  · rw [he]
    exact ⟨hlo, hhi⟩

theorem getD_mem_of_pos (l : List ℚ) (h : 0 < l.length) : l.getD 0 0 ∈ l := by
  cases l with
  | nil => simp at h
  | cons a t => exact List.mem_cons_self a t

theorem smoothTerrain_mem_bounds (t : List ℚ) (s : ℕ) (blend : ℚ)
    (hb0 : 0 ≤ blend) (hb1 : blend ≤ 1) (lo hi : ℚ) (hlo0 : lo ≤ 0) (hhi0 : 0 ≤ hi)
    (h : ∀ i : ℕ, lo ≤ t.getD i 0 ∧ t.getD i 0 ≤ hi) :
    ∀ v ∈ WorldGen.smoothTerrain t s blend, lo ≤ v ∧ v ≤ hi := by
  intro v hv
  unfold WorldGen.smoothTerrain at hv
  rcases List.mem_map.mp hv with ⟨i, hiMem, rfl⟩
  dsimp only
  have hiR : i < s * s := List.mem_range.mp hiMem
  have hsPos : 0 < s := by
    rcases Nat.eq_zero_or_pos s with h0 | h0
    · subst h0; omega
    · exact h0
  have h1 : i % s < s := Nat.mod_lt i hsPos
  have h2 : i / s < s := Nat.div_lt_of_lt_mul hiR
  have hcenter : ((0 : ℤ), (0 : ℤ)) ∈ WorldGen.blurOffsets.filter fun d =>
      inBounds s (((i % s : ℕ) : ℤ) + d.1) (((i / s : ℕ) : ℤ) + d.2) := by
    rw [List.mem_filter]
    refine ⟨by unfold WorldGen.blurOffsets; simp, ?_⟩
    simp only [add_zero, decide_eq_true_eq]
    exact ⟨Int.natCast_nonneg _, by exact_mod_cast h1,
      Int.natCast_nonneg _, by exact_mod_cast h2⟩
  set inNbrs := WorldGen.blurOffsets.filter fun d =>
    inBounds s (((i % s : ℕ) : ℤ) + d.1) (((i / s : ℕ) : ℤ) + d.2) with hInNbrs
  have hcount : 0 < inNbrs.length := List.length_pos_of_mem hcenter
  have hmax : (max 1 inNbrs.length : ℕ) = inNbrs.length := Nat.max_eq_right hcount
  have hsum := list_sum_le_bounds
    (inNbrs.map fun d => t.getD (toIndex s (((i % s : ℕ) : ℤ) + d.1).toNat
      (((i / s : ℕ) : ℤ) + d.2).toNat) 0) lo hi
    (by
      intro a ha
      rcases List.mem_map.mp ha with ⟨d, hd, rfl⟩
      exact h _)
  rw [List.length_map] at hsum
  have hlenPos : (0 : ℚ) < ((inNbrs.length : ℕ) : ℚ) := by exact_mod_cast hcount
  have havg : lo ≤ (inNbrs.map fun d => t.getD (toIndex s (((i % s : ℕ) : ℤ) + d.1).toNat
        (((i / s : ℕ) : ℤ) + d.2).toNat) 0).sum / ((inNbrs.length : ℕ) : ℚ)
      ∧ (inNbrs.map fun d => t.getD (toIndex s (((i % s : ℕ) : ℤ) + d.1).toNat
        (((i / s : ℕ) : ℤ) + d.2).toNat) 0).sum / ((inNbrs.length : ℕ) : ℚ) ≤ hi := by
    constructor
    · rw [le_div_iff₀ hlenPos]
      exact hsum.1
    · rw [div_le_iff₀ hlenPos]
      exact hsum.2
  have hself := h i
  rw [hmax]
  constructor
  · have q1 : lo * (1 - blend) ≤ t.getD i 0 * (1 - blend) :=
      mul_le_mul_of_nonneg_right hself.1 (by linarith)
    have q2 := mul_le_mul_of_nonneg_right havg.1 hb0
    linarith
  · have q1 : t.getD i 0 * (1 - blend) ≤ hi * (1 - blend) :=
      mul_le_mul_of_nonneg_right hself.2 (by linarith)
    have q2 := mul_le_mul_of_nonneg_right havg.2 hb0
    linarith

/-- On the 1 x 1 grid the source divides 0 by 0 in the coordinate
normalization; the resulting NaN survives every noise term, the height
clamp (JS Math.min and Math.max propagate NaN) and both blur passes, for
every platform-math record and every seed. -/
theorem generateBaseTerrainN_size1 (jm : JsMath) (seed : ℚ) :
    WorldGen.generateBaseTerrainN jm 1 seed = [none] := by
  with_unfolding_all rfl

/-- C4 counterexample.  The non-finite-tracking evaluation of the terrain
generator at size 1: the single cell is NaN, which does not lie within
[-12, 24], so the bound fails for size 1 in the program even though every
finite cell is clamped. -/
theorem generateBaseTerrainN_size1_counterexample :
    WorldGen.generateBaseTerrainN jm0 1 0 = [none]
      ∧ (WorldGen.generateBaseTerrainN jm0 1 0).all jsWithinHeightBounds = false := by
  have h := generateBaseTerrainN_size1 jm0 0
  exact ⟨h, by rw [h]; rfl⟩

/-- C4 amended.  For every size at least 2, every seed and every
platform-math record, every value of the generated terrain lies within
[MIN_TERRAIN_HEIGHT, MAX_TERRAIN_HEIGHT] = [-12, 24]: the per-cell clamp
establishes the bounds and the two box-blur passes are convex blends that
preserve them.  With size at least 2 the normalization denominator
size - 1 is at least 1, so the rational division agrees with the source;
the excluded 1 x 1 grid divides 0 by 0 and is settled by the
counterexample above. -/
theorem generateBaseTerrain_bounded (jm : JsMath) (size : ℕ) (seed : ℚ)
    (hsize : 2 ≤ size) :
    ∀ v ∈ WorldGen.generateBaseTerrain jm size seed,
      MIN_TERRAIN_HEIGHT ≤ v ∧ v ≤ MAX_TERRAIN_HEIGHT := by
  have hMM : MIN_TERRAIN_HEIGHT ≤ MAX_TERRAIN_HEIGHT := by
    norm_num [MIN_TERRAIN_HEIGHT, MAX_TERRAIN_HEIGHT]
  have hlo0 : MIN_TERRAIN_HEIGHT ≤ 0 := by norm_num [MIN_TERRAIN_HEIGHT]
  have hhi0 : (0 : ℚ) ≤ MAX_TERRAIN_HEIGHT := by norm_num [MAX_TERRAIN_HEIGHT]
  intro v hv
  unfold WorldGen.generateBaseTerrain at hv
  refine smoothTerrain_mem_bounds _ size 0.08 (by norm_num) (by norm_num)
    MIN_TERRAIN_HEIGHT MAX_TERRAIN_HEIGHT hlo0 hhi0 ?_ v hv
  refine getD_bounds_of_mem _ _ _ hlo0 hhi0 ?_
  refine smoothTerrain_mem_bounds _ size 0.16 (by norm_num) (by norm_num)
    MIN_TERRAIN_HEIGHT MAX_TERRAIN_HEIGHT hlo0 hhi0 ?_
  refine getD_bounds_of_mem _ _ _ hlo0 hhi0 ?_
  intro w hw
  rcases List.mem_map.mp hw with ⟨i, _, rfl⟩
  exact clamp_mem _ _ _ hMM

/-- Witness for the amended C4: the first cell of a generated 2 x 2 terrain
lies within the height bounds. -/
theorem generateBaseTerrain_bounded_witness :
    MIN_TERRAIN_HEIGHT ≤ (WorldGen.generateBaseTerrain jm0 2 0).getD 0 0
      ∧ (WorldGen.generateBaseTerrain jm0 2 0).getD 0 0 ≤ MAX_TERRAIN_HEIGHT :=
  generateBaseTerrain_bounded jm0 2 0 (by norm_num) _
    (getD_mem_of_pos _ (by
      simp only [WorldGen.generateBaseTerrain, WorldGen.smoothTerrain,
        List.length_map, List.length_range]
      norm_num))

theorem createClimateState_cloudiness_sim (jm : JsMath) (time seed dayPhase : ℚ) :
    (Climate.createClimateState jm time seed dayPhase none none).cloudiness =
      Climate.saturate (0.1 + ((jm.sin (time * 0.012 + seed * 0.00017) * 0.5 + 0.5) * 0.62
        + (jm.sin (time * 0.0045 + seed * 0.00043) * 0.5 + 0.5) * 0.38) * 0.78) := rfl

theorem createClimateState_rainIntensity_sim (jm : JsMath) (time seed dayPhase : ℚ) :
    (Climate.createClimateState jm time seed dayPhase none none).rainIntensity =
      Climate.saturate (Climate.smoothstep 0.6 0.92
          (Climate.saturate (0.1 + ((jm.sin (time * 0.012 + seed * 0.00017) * 0.5 + 0.5) * 0.62
            + (jm.sin (time * 0.0045 + seed * 0.00043) * 0.5 + 0.5) * 0.38) * 0.78))
        * (0.14 + (jm.sin (time * 0.021 + seed * 0.00091) * 0.5 + 0.5) * 0.62)) := rfl

theorem smoothstep_eq_zero (e0 e1 v : ℚ) (hne : e0 < e1) (hv : v ≤ e0) :
    Climate.smoothstep e0 e1 v = 0 := by
  unfold Climate.smoothstep
  rw [if_neg (ne_of_lt hne)]
  have ht : Climate.saturate ((v - e0) / (e1 - e0)) = 0 := by
    unfold Climate.saturate
    have hd : (v - e0) / (e1 - e0) ≤ 0 :=
      div_nonpos_of_nonpos_of_nonneg (by linarith) (by linarith)
    rw [min_eq_right (le_trans hd zero_le_one), max_eq_left hd]
  rw [ht]
  norm_num

/-- C8.  In simulation mode (no weather override) rain is gated by the
smoothstep over cloudiness: whenever the computed cloudiness is at or below
the 0.6 threshold, rainIntensity is exactly 0. -/
theorem createClimateState_rain_gate (jm : JsMath) (time seed dayPhase : ℚ)
    (h : (Climate.createClimateState jm time seed dayPhase none none).cloudiness ≤ 0.6) :
    (Climate.createClimateState jm time seed dayPhase none none).rainIntensity = 0 := by
  rw [createClimateState_cloudiness_sim] at h
  rw [createClimateState_rainIntensity_sim,
    smoothstep_eq_zero 0.6 0.92 _ (by norm_num) h, zero_mul]
  unfold Climate.saturate
  norm_num

/-- Witness for C8: with the zero platform-math record at time 0, seed 0,
the simulated cloudiness is 0.49, at most 0.6, and rain is 0. -/
theorem createClimateState_rain_gate_witness :
    (Climate.createClimateState jm0 0 0 0 none none).rainIntensity = 0 :=
  createClimateState_rain_gate jm0 0 0 0 (by
    rw [createClimateState_cloudiness_sim]
    norm_num [jm0, Climate.saturate])

theorem requiredFieldsOk_spec (v : JVal) (h : requiredFieldsOk v = true) :
    ∃ (a sz : ℚ) (tr wa : List JVal) (ve ti : ℚ),
      v.getField "version" = .jnum a ∧ v.getField "size" = .jnum sz
      ∧ v.getField "terrain" = .jarr tr ∧ v.getField "water" = .jarr wa
      ∧ v.getField "vegetationSeed" = .jnum ve ∧ v.getField "time" = .jnum ti := by
  unfold requiredFieldsOk at h
  split at h
  · rename_i a sz tr wa ve ti h1 h2 h3 h4 h5 h6
    exact ⟨a, sz, tr, wa, ve, ti, h1, h2, h3, h4, h5, h6⟩
  · exact absurd h (by simp)

theorem isObjectLike_of_requiredFieldsOk (v : JVal) (h : requiredFieldsOk v = true) :
    v.isObjectLike = true := by
  cases v <;> first
    | rfl
    | (exact absurd h (by simp [requiredFieldsOk, JVal.getField]))

/-- C9 counterexample.  A payload whose shape, scalar fields, dimensions and
sources all validate, but whose water array holds the negative entry -1, is
accepted by deserializeWorld: it returns a world state with water[0] = -1,
violating the water non-negativity invariant of the data model, so corrupted
array contents are not rejected. -/
theorem deserializeWorld_negative_water_counterexample :
    deserializeWorld c9payload
      = Except.ok (⟨1, 1, 7, [some 0], [some (-1)], [], 0, 0⟩ : JsWorld)
      ∧ ¬ (0 : ℚ) ≤ -1 := by
  constructor
  · with_unfolding_all rfl
  · norm_num

/-- C9 amended.  deserializeWorld distinguishes its failure modes: a
non-object payload reports the malformed-shape error, missing or non-number
scalar fields and non-array terrain or water report the incomplete-payload
error, array lengths differing from size * size report the dimension error,
and an invalid sources field propagates the source-validation error; the
individual terrain and water array elements, however, are not validated. -/
theorem deserializeWorld_error_classification :
    (∀ v : JVal, v.isObjectLike = false →
        deserializeWorld v = Except.error "Invalid world payload")
    ∧ (∀ v : JVal, v.isObjectLike = true → requiredFieldsOk v = false →
        deserializeWorld v = Except.error "Incomplete world payload")
    ∧ (∀ v : JVal, requiredFieldsOk v = true → dimensionsOk v = false →
        deserializeWorld v = Except.error "Corrupted world dimensions")
    ∧ (∀ (v : JVal) (e : String), requiredFieldsOk v = true → dimensionsOk v = true →
        validateSources (v.getField "sources") = Except.error e →
        deserializeWorld v = Except.error e) := by
  refine ⟨?_, ?_, ?_, ?_⟩
  · intro v hv
    simp [deserializeWorld, hv]
  · intro v hobj hreq
    simp only [deserializeWorld, hobj, if_true]
    split
    · rename_i a sz tr wa ve ti h1 h2 h3 h4 h5 h6
      rw [requiredFieldsOk, h1, h2, h3, h4, h5, h6] at hreq
      exact absurd hreq (by simp)
    · rfl
  · intro v hreq hdim
    rcases requiredFieldsOk_spec v hreq with ⟨a, sz, tr, wa, ve, ti, e1, e2, e3, e4, e5, e6⟩
    have hobj := isObjectLike_of_requiredFieldsOk v hreq
    rw [dimensionsOk, e2, e3, e4] at hdim
    simp only [Bool.and_eq_false_iff, decide_eq_false_iff_not] at hdim
    simp only [deserializeWorld, hobj, if_true, e1, e2, e3, e4, e5, e6]
    rw [if_pos hdim]
  · intro v e hreq hdim hval
    rcases requiredFieldsOk_spec v hreq with ⟨a, sz, tr, wa, ve, ti, e1, e2, e3, e4, e5, e6⟩
    have hobj := isObjectLike_of_requiredFieldsOk v hreq
    rw [dimensionsOk, e2, e3, e4] at hdim
    simp only [Bool.and_eq_true, decide_eq_true_eq] at hdim
    simp only [deserializeWorld, hobj, if_true, e1, e2, e3, e4, e5, e6]
    rw [if_neg (by push_neg; exact hdim), hval]
    rfl

/-- Witness for the amended C9: concrete payloads hitting each of the four
error classes. -/
theorem deserializeWorld_error_classification_witness :
    deserializeWorld (.jnum 3) = Except.error "Invalid world payload"
    ∧ deserializeWorld (.jobj []) = Except.error "Incomplete world payload"
    ∧ deserializeWorld (.jobj [("version", .jnum 1), ("size", .jnum 2),
        ("terrain", .jarr []), ("water", .jarr []), ("vegetationSeed", .jnum 0),
        ("time", .jnum 0)]) = Except.error "Corrupted world dimensions"
    ∧ deserializeWorld (.jobj [("version", .jnum 1), ("size", .jnum 0),
        ("terrain", .jarr []), ("water", .jarr []), ("vegetationSeed", .jnum 0),
        ("time", .jnum 0), ("sources", .jnum 5)])
      = Except.error "Invalid source payload" :=
  ⟨deserializeWorld_error_classification.1 (.jnum 3) rfl,
   deserializeWorld_error_classification.2.1 (.jobj []) rfl rfl,
   deserializeWorld_error_classification.2.2.1 _ (by with_unfolding_all decide)
     (by with_unfolding_all decide),
   deserializeWorld_error_classification.2.2.2 _ "Invalid source payload"
     (by with_unfolding_all decide) (by with_unfolding_all decide)
     (by with_unfolding_all rfl)⟩

/-- C10.  stepWater only replaces the water array: terrain, sources, size,
terrainSeed, vegetationSeed, time and version are unchanged. -/
theorem stepWater_frame (st : WorldState) (p : SimParams) :
    (stepWater st p).terrain = st.terrain ∧ (stepWater st p).sources = st.sources
      ∧ (stepWater st p).size = st.size
      ∧ (stepWater st p).terrainSeed = st.terrainSeed
      ∧ (stepWater st p).vegetationSeed = st.vegetationSeed
      ∧ (stepWater st p).time = st.time
      ∧ (stepWater st p).version = st.version :=
  ⟨rfl, rfl, rfl, rfl, rfl, rfl, rfl⟩
